import Mathlib

/-!
A shallow embedding of the invoice-management backend
(`backend/app/crud.py`, `backend/app/routers/*.py`,
`backend/app/models/*.py`, `backend/app/schemas.py`).

Monetary amounts (SQL `Float`) are modelled as exact rationals `ℚ`;
quantities (SQL `Integer`) as `ℤ`.  The database session is modelled as an
explicit record of entity tables (lists of rows); `query(...).filter(id ==
...).first()` becomes `List.find?` on the row list, and in-place mutation of
a fetched row becomes replacement of the first matching row.  Sessions are
configured with `autoflush=False` in the repository's test setup, so a row
newly `add`ed in the current request is not visible to relationship loads
within the same request; `create_payment` is modelled accordingly.
-/

namespace InvoiceApp

/-- `models/enums.py` `InvoiceStatus`. -/
inductive InvoiceStatus where
  | draft | sent | paid | overdue | cancelled
deriving DecidableEq

/-- `models/enums.py` `PaymentMethod`. -/
inductive PaymentMethod where
  | cash | bank_transfer | credit_card | paypal | check
deriving DecidableEq

/-- `models/enums.py` `PaymentStatus`. -/
inductive PaymentStatus where
  | pending | completed | failed | refunded
deriving DecidableEq

/-- `models/enums.py` `CustomerType`. -/
inductive CustomerType where
  | customer | client
deriving DecidableEq

/-- `models/user.py` `User` row (timestamps omitted). -/
structure User where
  id : String
  name : String
  email : String
  password_hash : String
  is_super_admin : Bool
deriving DecidableEq

/-- `models/customer.py` `Customer` row. -/
structure Customer where
  id : String
  name : String
  email : String
  phone : Option String
  type : CustomerType
deriving DecidableEq

/-- `models/invoice.py` `Invoice` row. -/
structure Invoice where
  id : String
  user_id : String
  customer_id : String
  status : InvoiceStatus
  total_amount : ℚ
  is_paid : Bool
deriving DecidableEq

/-- `models/invoice.py` `InvoiceItem` row. -/
structure InvoiceItem where
  id : String
  invoice_id : String
  description : String
  quantity : ℤ
  unit_price : ℚ
  total : ℚ
deriving DecidableEq

/-- `models/payment.py` `Payment` row. -/
structure Payment where
  id : String
  user_id : String
  invoice_id : String
  amount : ℚ
  method : PaymentMethod
  status : PaymentStatus
deriving DecidableEq

/-- The database state: one table per entity. -/
structure DB where
  users : List User
  customers : List Customer
  invoices : List Invoice
  items : List InvoiceItem
  payments : List Payment
deriving DecidableEq

/-- `schemas.py` `UserCreate`. -/
structure UserCreate where
  name : String
  email : String
  is_super_admin : Bool
  password : String
deriving DecidableEq

/-- `schemas.py` `UserUpdate` (partial update: `None` = field omitted). -/
structure UserUpdate where
  name : Option String
  email : Option String
  is_super_admin : Option Bool
deriving DecidableEq

/-- `schemas.py` `InvoiceItemCreate`. -/
structure InvoiceItemCreate where
  description : String
  quantity : ℤ
  unit_price : ℚ
deriving DecidableEq

/-- `schemas.py` `InvoiceItemUpdate`. -/
structure InvoiceItemUpdate where
  description : Option String
  quantity : Option ℤ
  unit_price : Option ℚ
deriving DecidableEq

/-- `schemas.py` `InvoiceCreate`. -/
structure InvoiceCreate where
  customer_id : String
  status : InvoiceStatus
  items : List InvoiceItemCreate
deriving DecidableEq

/-- `schemas.py` `InvoiceUpdate`. -/
structure InvoiceUpdate where
  customer_id : Option String
  status : Option InvoiceStatus
  is_paid : Option Bool
deriving DecidableEq

/-- `schemas.py` `PaymentCreate`. -/
structure PaymentCreate where
  invoice_id : String
  amount : ℚ
  method : PaymentMethod
  status : PaymentStatus
deriving DecidableEq

/-- `schemas.py` `PaymentUpdate`. -/
structure PaymentUpdate where
  amount : Option ℚ
  method : Option PaymentMethod
  status : Option PaymentStatus
deriving DecidableEq

/-- Replace the first element satisfying `p` by its image under `f`
(in-place mutation of the row returned by `.first()`). -/
def updateFirstBy (p : α → Bool) (f : α → α) : List α → List α
  | [] => []
  | x :: xs => if p x then f x :: xs else x :: updateFirstBy p f xs

/-- Remove the first element satisfying `p` (`db.delete` of the row
returned by `.first()`). -/
def removeFirstBy (p : α → Bool) : List α → List α
  | [] => []
  | x :: xs => if p x then xs else x :: removeFirstBy p xs

/-! ### CRUD layer (`crud.py`) -/

/-- `crud.get_user`. -/
def get_user (db : DB) (user_id : String) : Option User :=
  db.users.find? (fun u => u.id == user_id)

/-- `crud.get_user_by_email`. -/
def get_user_by_email (db : DB) (email : String) : Option User :=
  db.users.find? (fun u => u.email == email)

/-- `crud.create_user`.  `new_id` stands for the generated UUID primary
key; `hash` stands for `auth.get_password_hash` (the external
authentication provider's password hasher). -/
def create_user (db : DB) (user : UserCreate) (new_id : String)
    (hash : String → String) : DB × User :=
  let db_user : User :=
    { id := new_id, name := user.name, email := user.email,
      password_hash := hash user.password,
      is_super_admin := user.is_super_admin }
  ({ db with users := db.users ++ [db_user] }, db_user)

/-- Field-by-field application of a `UserUpdate` (`setattr` loop over
`dict(exclude_unset=True)`). -/
def applyUserUpdate (u : User) (upd : UserUpdate) : User :=
  { u with
    name := upd.name.getD u.name,
    email := upd.email.getD u.email,
    is_super_admin := upd.is_super_admin.getD u.is_super_admin }

/-- `crud.update_user`. -/
def update_user (db : DB) (user_id : String) (upd : UserUpdate) :
    DB × Option User :=
  match get_user db user_id with
  | none => (db, none)
  | some db_user =>
    let u' := applyUserUpdate db_user upd
    ({ db with users := updateFirstBy (fun u => u.id == user_id) (fun _ => u') db.users },
     some u')

/-- `crud.delete_user`. -/
def delete_user (db : DB) (user_id : String) : DB × Bool :=
  match get_user db user_id with
  | none => (db, false)
  | some _ =>
    ({ db with users := removeFirstBy (fun u => u.id == user_id) db.users }, true)

/-- `crud.get_customer`. -/
def get_customer (db : DB) (customer_id : String) : Option Customer :=
  db.customers.find? (fun c => c.id == customer_id)

/-- `crud.get_invoice` (the joined relationship loads do not change the
row itself). -/
def get_invoice (db : DB) (invoice_id : String) : Option Invoice :=
  db.invoices.find? (fun inv => inv.id == invoice_id)

/-- The `db.query(models.InvoiceItem).filter(models.InvoiceItem.id ==
item_id).first()` lookup used by the item endpoints. -/
def get_invoice_item (db : DB) (item_id : String) : Option InvoiceItem :=
  db.items.find? (fun it => it.id == item_id)

/-- `crud.get_payment`. -/
def get_payment (db : DB) (payment_id : String) : Option Payment :=
  db.payments.find? (fun p => p.id == payment_id)

/-- `crud.get_invoices`: optional filter by owning user (Python truthiness:
an empty-string `user_id` is falsy and disables the filter), then
`offset(skip).limit(limit)`. -/
def get_invoices (db : DB) (user_id : Option String) (skip limit : ℕ) :
    List Invoice :=
  let q := match user_id with
    | some uid => if uid == "" then db.invoices
                  else db.invoices.filter (fun inv => inv.user_id == uid)
    | none => db.invoices
  (q.drop skip).take limit

/-- `crud.get_payments`: optional filters by owning user and by invoice
(Python truthiness as in `get_invoices`), then pagination. -/
def get_payments (db : DB) (user_id invoice_id : Option String)
    (skip limit : ℕ) : List Payment :=
  let q := match user_id with
    | some uid => if uid == "" then db.payments
                  else db.payments.filter (fun p => p.user_id == uid)
    | none => db.payments
  let q := match invoice_id with
    | some iid => if iid == "" then q
                  else q.filter (fun p => p.invoice_id == iid)
    | none => q
  (q.drop skip).take limit

/-- The item row inserted for an item specification: the stored `total`
is `quantity * unit_price`. -/
def newItemRow (item : InvoiceItemCreate) (invoice_id item_id : String) :
    InvoiceItem :=
  { id := item_id, invoice_id := invoice_id, description := item.description,
    quantity := item.quantity, unit_price := item.unit_price,
    total := (item.quantity : ℚ) * item.unit_price }

/-- The item rows created by the `for item in invoice.items` loop of
`crud.create_invoice`; `item_ids` are the generated UUID primary keys,
one per supplied item. -/
def buildItems (inv_id : String) :
    List String → List InvoiceItemCreate → List InvoiceItem
  | [], _ => []
  | _ :: _, [] => []
  | iid :: ids, it :: its => newItemRow it inv_id iid :: buildItems inv_id ids its

/-- The invoice row inserted by `crud.create_invoice`: `total_amount` is
the sum of `quantity * unit_price` over the supplied items. -/
def newInvoiceRow (invoice : InvoiceCreate) (user_id inv_id : String) :
    Invoice :=
  { id := inv_id, user_id := user_id, customer_id := invoice.customer_id,
    status := invoice.status,
    total_amount := (invoice.items.map
      (fun it => (it.quantity : ℚ) * it.unit_price)).sum,
    is_paid := false }

/-- `crud.create_invoice`: compute `total_amount` as the sum of
`quantity * unit_price` over the supplied items, insert the invoice and
its items, and return `get_invoice` on the new id. -/
def create_invoice (db : DB) (invoice : InvoiceCreate) (user_id inv_id : String)
    (item_ids : List String) : DB × Option Invoice :=
  let db_invoice := newInvoiceRow invoice user_id inv_id
  let db' : DB :=
    { db with invoices := db.invoices ++ [db_invoice],
              items := db.items ++ buildItems inv_id item_ids invoice.items }
  (db', get_invoice db' inv_id)

/-- Field-by-field application of an `InvoiceUpdate`. -/
def applyInvoiceUpdate (inv : Invoice) (upd : InvoiceUpdate) : Invoice :=
  { inv with
    customer_id := upd.customer_id.getD inv.customer_id,
    status := upd.status.getD inv.status,
    is_paid := upd.is_paid.getD inv.is_paid }

/-- `crud.update_invoice`. -/
def update_invoice (db : DB) (invoice_id : String) (upd : InvoiceUpdate) :
    DB × Option Invoice :=
  match get_invoice db invoice_id with
  | none => (db, none)
  | some db_invoice =>
    let inv' := applyInvoiceUpdate db_invoice upd
    ({ db with invoices :=
        updateFirstBy (fun inv => inv.id == invoice_id) (fun _ => inv') db.invoices },
     some inv')

/-- `crud.delete_invoice`: deleting the invoice also deletes its items
(`cascade="all, delete-orphan"` on `Invoice.items` in
`models/invoice.py`); payments are not cascaded. -/
def delete_invoice (db : DB) (invoice_id : String) : DB × Bool :=
  match get_invoice db invoice_id with
  | none => (db, false)
  | some _ =>
    ({ db with
        invoices := removeFirstBy (fun inv => inv.id == invoice_id) db.invoices,
        items := db.items.filter (fun it => !(it.invoice_id == invoice_id)) },
     true)

/-- The in-place mutation `invoice.total_amount += item_total` of
`crud.create_invoice_item`. -/
def shiftTotal (delta : ℚ) (inv : Invoice) : Invoice :=
  { inv with total_amount := inv.total_amount + delta }

/-- The in-place mutation `invoice.total_amount = invoice.total_amount -
old_total + db_item.total` of `crud.update_invoice_item`. -/
def adjustTotal (old_total new_total : ℚ) (inv : Invoice) : Invoice :=
  { inv with total_amount := inv.total_amount - old_total + new_total }

/-- The in-place mutation `invoice.total_amount -= db_item.total` of
`crud.delete_invoice_item`. -/
def subtractTotal (delta : ℚ) (inv : Invoice) : Invoice :=
  { inv with total_amount := inv.total_amount - delta }

/-- The in-place mutation `invoice.is_paid = True;
invoice.status = InvoiceStatus.PAID` of `crud.create_payment`. -/
def markPaid (inv : Invoice) : Invoice :=
  { inv with is_paid := true, status := InvoiceStatus.paid }

/-- `crud.create_invoice_item`: insert the item with
`total = quantity * unit_price`, then, if the invoice exists, add that
total to the invoice's `total_amount`. -/
def create_invoice_item (db : DB) (item : InvoiceItemCreate)
    (invoice_id item_id : String) : DB × InvoiceItem :=
  let item_total := (item.quantity : ℚ) * item.unit_price
  let db_item := newItemRow item invoice_id item_id
  let new_invoices :=
    match get_invoice db invoice_id with
    | some _ =>
      updateFirstBy (fun inv => inv.id == invoice_id) (shiftTotal item_total)
        db.invoices
    | none => db.invoices
  ({ db with items := db.items ++ [db_item], invoices := new_invoices }, db_item)

/-- Field-by-field application of an `InvoiceItemUpdate`. -/
def applyItemUpdate (it : InvoiceItem) (upd : InvoiceItemUpdate) : InvoiceItem :=
  { it with
    description := upd.description.getD it.description,
    quantity := upd.quantity.getD it.quantity,
    unit_price := upd.unit_price.getD it.unit_price }

/-- The item row after `update_invoice_item`'s `setattr` loop and
`total` recomputation. -/
def recomputedItem (it : InvoiceItem) (upd : InvoiceItemUpdate) : InvoiceItem :=
  let u := applyItemUpdate it upd
  { u with total := (u.quantity : ℚ) * u.unit_price }

/-- `crud.update_invoice_item`: apply the supplied fields, recompute
`total = quantity * unit_price`, and, if the owning invoice exists, shift
its `total_amount` by the delta `new total - old total`. -/
def update_invoice_item (db : DB) (item_id : String) (upd : InvoiceItemUpdate) :
    DB × Option InvoiceItem :=
  match get_invoice_item db item_id with
  | none => (db, none)
  | some db_item =>
    let old_total := db_item.total
    let new_item := recomputedItem db_item upd
    let new_invoices :=
      match get_invoice db db_item.invoice_id with
      | some _ =>
        updateFirstBy (fun inv => inv.id == db_item.invoice_id)
          (adjustTotal old_total new_item.total) db.invoices
      | none => db.invoices
    ({ db with
        items := updateFirstBy (fun it => it.id == item_id) (fun _ => new_item) db.items,
        invoices := new_invoices },
     some new_item)

/-- `crud.delete_invoice_item`: if the owning invoice exists, subtract
the item's total from its `total_amount`, then delete the item. -/
def delete_invoice_item (db : DB) (item_id : String) : DB × Bool :=
  match get_invoice_item db item_id with
  | none => (db, false)
  | some db_item =>
    let new_invoices :=
      match get_invoice db db_item.invoice_id with
      | some _ =>
        updateFirstBy (fun inv => inv.id == db_item.invoice_id)
          (subtractTotal db_item.total) db.invoices
      | none => db.invoices
    ({ db with
        items := removeFirstBy (fun it => it.id == item_id) db.items,
        invoices := new_invoices },
     true)

/-- Sum of the amounts of the completed payments of `invoice_id` among the
persisted rows (`sum(p.amount for p in invoice.payments if p.status ==
PaymentStatus.COMPLETED)`; with `autoflush=False` the payment `add`ed in
the current request is not yet persisted, so it is not included here). -/
def completedSum (payments : List Payment) (invoice_id : String) : ℚ :=
  ((payments.filter
      (fun p => p.invoice_id == invoice_id && p.status == PaymentStatus.completed)).map
    (fun p => p.amount)).sum

/-- `crud.create_payment`: insert the payment; if its status is completed
and the invoice exists, compare the previously completed payments plus the
new amount against `total_amount` and, on reaching it, set
`is_paid = true` and status `paid`. -/
def create_payment (db : DB) (payment : PaymentCreate) (user_id new_id : String) :
    DB × Payment :=
  let db_payment : Payment :=
    { id := new_id, user_id := user_id, invoice_id := payment.invoice_id,
      amount := payment.amount, method := payment.method,
      status := payment.status }
  let new_invoices :=
    if payment.status == PaymentStatus.completed then
      match get_invoice db payment.invoice_id with
      | some invoice =>
        if invoice.total_amount ≤
            completedSum db.payments payment.invoice_id + payment.amount then
          updateFirstBy (fun inv => inv.id == payment.invoice_id) markPaid
            db.invoices
        else db.invoices
      | none => db.invoices
    else db.invoices
  ({ db with payments := db.payments ++ [db_payment], invoices := new_invoices },
   db_payment)

/-- Field-by-field application of a `PaymentUpdate`. -/
def applyPaymentUpdate (p : Payment) (upd : PaymentUpdate) : Payment :=
  { p with
    amount := upd.amount.getD p.amount,
    method := upd.method.getD p.method,
    status := upd.status.getD p.status }

/-- `crud.update_payment`: a pure row update; the invoice table is never
touched (no paid-threshold re-check). -/
def update_payment (db : DB) (payment_id : String) (upd : PaymentUpdate) :
    DB × Option Payment :=
  match get_payment db payment_id with
  | none => (db, none)
  | some db_payment =>
    let p' := applyPaymentUpdate db_payment upd
    ({ db with payments :=
        updateFirstBy (fun p => p.id == payment_id) (fun _ => p') db.payments },
     some p')

/-- `crud.delete_payment`: removes the payment row only. -/
def delete_payment (db : DB) (payment_id : String) : DB × Bool :=
  match get_payment db payment_id with
  | none => (db, false)
  | some _ =>
    ({ db with payments := removeFirstBy (fun p => p.id == payment_id) db.payments },
     true)

/-! ### Router layer (`routers/*.py`)

Each handler takes the authenticated caller `cu` (the result of the
`auth.get_current_user` dependency) and returns an HTTP-level outcome. -/

/-- Outcome of a request handler: a 2xx value, 404, 403, or 400. -/
inductive ApiResult (α : Type) where
  | ok (value : α)
  | notFound
  | forbidden
  | conflict
deriving DecidableEq

/-- `routers/invoices.py` `read_invoices`: super admins see all invoices,
regular users only their own. -/
def read_invoices_route (db : DB) (cu : User) (skip limit : ℕ) : List Invoice :=
  get_invoices db (if cu.is_super_admin then none else some cu.id) skip limit

/-- `routers/payments.py` `read_payments`: super admins see all payments,
regular users only their own; optional invoice filter. -/
def read_payments_route (db : DB) (cu : User) (invoice_id : Option String)
    (skip limit : ℕ) : List Payment :=
  get_payments db (if cu.is_super_admin then none else some cu.id) invoice_id
    skip limit

/-- `routers/invoices.py` `read_invoice`: 404 if absent, 403 if the caller
is neither super admin nor owner. -/
def read_invoice_route (db : DB) (invoice_id : String) (cu : User) :
    ApiResult Invoice :=
  match get_invoice db invoice_id with
  | none => ApiResult.notFound
  | some db_invoice =>
    if !cu.is_super_admin && db_invoice.user_id != cu.id then ApiResult.forbidden
    else ApiResult.ok db_invoice

/-- `routers/invoices.py` `update_invoice`: existence, then permission,
then (if a customer id is supplied) customer existence, then the update. -/
def update_invoice_route (db : DB) (invoice_id : String) (upd : InvoiceUpdate)
    (cu : User) : DB × ApiResult Invoice :=
  match get_invoice db invoice_id with
  | none => (db, ApiResult.notFound)
  | some db_invoice =>
    if !cu.is_super_admin && db_invoice.user_id != cu.id then
      (db, ApiResult.forbidden)
    else
      let check_ok :=
        match upd.customer_id with
        | some cid => (get_customer db cid).isSome
        | none => true
      if check_ok then
        match update_invoice db invoice_id upd with
        | (db', some inv') => (db', ApiResult.ok inv')
        | (db', none) => (db', ApiResult.notFound)
      else (db, ApiResult.notFound)

/-- `routers/invoices.py` `delete_invoice`. -/
def delete_invoice_route (db : DB) (invoice_id : String) (cu : User) :
    DB × ApiResult Unit :=
  match get_invoice db invoice_id with
  | none => (db, ApiResult.notFound)
  | some db_invoice =>
    if !cu.is_super_admin && db_invoice.user_id != cu.id then
      (db, ApiResult.forbidden)
    else
      match delete_invoice db invoice_id with
      | (db', true) => (db', ApiResult.ok ())
      | (db', false) => (db', ApiResult.notFound)

/-- `routers/payments.py` `read_payment`. -/
def read_payment_route (db : DB) (payment_id : String) (cu : User) :
    ApiResult Payment :=
  match get_payment db payment_id with
  | none => ApiResult.notFound
  | some db_payment =>
    if !cu.is_super_admin && db_payment.user_id != cu.id then ApiResult.forbidden
    else ApiResult.ok db_payment

/-- `routers/payments.py` `update_payment`. -/
def update_payment_route (db : DB) (payment_id : String) (upd : PaymentUpdate)
    (cu : User) : DB × ApiResult Payment :=
  match get_payment db payment_id with
  | none => (db, ApiResult.notFound)
  | some db_payment =>
    if !cu.is_super_admin && db_payment.user_id != cu.id then
      (db, ApiResult.forbidden)
    else
      match update_payment db payment_id upd with
      | (db', some p') => (db', ApiResult.ok p')
      | (db', none) => (db', ApiResult.notFound)

/-- `routers/payments.py` `delete_payment`. -/
def delete_payment_route (db : DB) (payment_id : String) (cu : User) :
    DB × ApiResult Unit :=
  match get_payment db payment_id with
  | none => (db, ApiResult.notFound)
  | some db_payment =>
    if !cu.is_super_admin && db_payment.user_id != cu.id then
      (db, ApiResult.forbidden)
    else
      match delete_payment db payment_id with
      | (db', true) => (db', ApiResult.ok ())
      | (db', false) => (db', ApiResult.notFound)

/-- `routers/users.py` `read_user`: the permission check runs before the
existence check. -/
def read_user_route (db : DB) (user_id : String) (cu : User) : ApiResult User :=
  if user_id != cu.id && !cu.is_super_admin then ApiResult.forbidden
  else
    match get_user db user_id with
    | none => ApiResult.notFound
    | some db_user => ApiResult.ok db_user

/-- `routers/users.py` `update_user`: permission check, then a second
403 when a non-super-admin supplies the `is_super_admin` field at all,
then the update. -/
def update_user_route (db : DB) (user_id : String) (upd : UserUpdate)
    (cu : User) : DB × ApiResult User :=
  if user_id != cu.id && !cu.is_super_admin then (db, ApiResult.forbidden)
  else if upd.is_super_admin.isSome && !cu.is_super_admin then
    (db, ApiResult.forbidden)
  else
    match update_user db user_id upd with
    | (db', some u') => (db', ApiResult.ok u')
    | (db', none) => (db', ApiResult.notFound)

/-- `routers/users.py` `delete_user`, super-admin only via the
`auth.get_current_super_admin` dependency.  Modelled from the spec: the
`auth` module is not part of the sources; per the spec's authorization
table ("User | list all, delete any | only super-admin") and failure
taxonomy, the dependency signals Forbidden for any non-super-admin caller
before the handler body runs. -/
def delete_user_route (db : DB) (user_id : String) (cu : User) :
    DB × ApiResult Unit :=
  if !cu.is_super_admin then (db, ApiResult.forbidden)
  else
    match delete_user db user_id with
    | (db', true) => (db', ApiResult.ok ())
    | (db', false) => (db', ApiResult.notFound)

/-- `routers/auth.py` `register`: no authentication dependency (it takes
no caller argument); 400 if the email is taken, otherwise
`crud.create_user` with the request's fields, `is_super_admin` included. -/
def register_route (db : DB) (user : UserCreate) (new_id : String)
    (hash : String → String) : DB × ApiResult User :=
  match get_user_by_email db user.email with
  | some _ => (db, ApiResult.conflict)
  | none =>
    let r := create_user db user new_id hash
    (r.1, ApiResult.ok r.2)

/-! ### Item-level operation sequences and the accounting invariant -/

/-- Sum of the stored `total`s of the items belonging to `invoice_id`. -/
def itemsTotal (items : List InvoiceItem) (invoice_id : String) : ℚ :=
  ((items.filter (fun it => it.invoice_id == invoice_id)).map
    (fun it => it.total)).sum

/-- Primary-key uniqueness of the invoice and item tables (enforced by the
database's primary-key constraints). -/
def Wf (db : DB) : Prop :=
  (db.invoices.map (fun inv => inv.id)).Nodup ∧
  (db.items.map (fun it => it.id)).Nodup

/-- The two accounting equations of the spec: every invoice's
`total_amount` is the sum of its items' totals, and every item's `total`
is `quantity * unit_price`. -/
def TotalsInv (db : DB) : Prop :=
  (∀ inv ∈ db.invoices, inv.total_amount = itemsTotal db.items inv.id) ∧
  (∀ it ∈ db.items, it.total = (it.quantity : ℚ) * it.unit_price)

/-- The item-level operations of the accounting layer. -/
inductive Op where
  | createInv (invoice : InvoiceCreate) (user_id inv_id : String)
      (item_ids : List String)
  | addItem (item : InvoiceItemCreate) (invoice_id item_id : String)
  | updItem (item_id : String) (upd : InvoiceItemUpdate)
  | delItem (item_id : String)

/-- State transition of one operation (the CRUD functions above, with the
returned value discarded). -/
def applyOp (db : DB) : Op → DB
  | Op.createInv invoice uid iid ids => (create_invoice db invoice uid iid ids).1
  | Op.addItem item iid tid => (create_invoice_item db item iid tid).1
  | Op.updItem tid upd => (update_invoice_item db tid upd).1
  | Op.delItem tid => (delete_invoice_item db tid).1

/-- Freshness of the UUID primary keys generated for an operation: a new
invoice id collides with no existing invoice id and no existing item's
invoice reference, and new item ids (one per supplied item) are distinct
and collide with no existing item id. -/
def FreshOp (db : DB) : Op → Prop
  | Op.createInv invoice _ iid ids =>
      iid ∉ db.invoices.map (fun inv => inv.id) ∧
      (∀ it ∈ db.items, it.invoice_id ≠ iid) ∧
      ids.Nodup ∧ ids.length = invoice.items.length ∧
      ∀ tid ∈ ids, tid ∉ db.items.map (fun it => it.id)
  | Op.addItem _ _ tid => tid ∉ db.items.map (fun it => it.id)
  | Op.updItem _ _ => True
  | Op.delItem _ => True

/-- Fold a sequence of operations over a state. -/
def applyOps (db : DB) : List Op → DB
  | [] => db
  | op :: ops => applyOps (applyOp db op) ops

/-- Every operation of the sequence uses fresh ids at its point of
execution. -/
def FreshSeq (db : DB) : List Op → Prop
  | [] => True
  | op :: ops => FreshOp db op ∧ FreshSeq (applyOp db op) ops

instance instDecWf (db : DB) : Decidable (Wf db) := by
  unfold Wf; infer_instance

instance instDecTotalsInv (db : DB) : Decidable (TotalsInv db) := by
  unfold TotalsInv; infer_instance

instance instDecFreshOp (db : DB) (op : Op) : Decidable (FreshOp db op) := by
  cases op <;> simp only [FreshOp] <;> infer_instance

instance instDecFreshSeq : (db : DB) → (ops : List Op) → Decidable (FreshSeq db ops)
  | _, [] => Decidable.isTrue trivial
  | db, op :: ops =>
    have : Decidable (FreshSeq (applyOp db op) ops) := instDecFreshSeq _ ops
    decidable_of_iff (FreshOp db op ∧ FreshSeq (applyOp db op) ops) Iff.rfl

/-! ### Concrete sample states (used to instantiate the theorems) -/

/-- A sample unpaid invoice of total 100. -/
def invA : Invoice :=
  { id := "i1", user_id := "u1", customer_id := "c1",
    status := InvoiceStatus.sent, total_amount := 100, is_paid := false }

/-- A state holding just `invA`. -/
def dbA : DB :=
  { users := [], customers := [], invoices := [invA], items := [],
    payments := [] }

/-- A completed payment request of 100 against `invA`. -/
def payA : PaymentCreate :=
  { invoice_id := "i1", amount := 100, method := PaymentMethod.cash,
    status := PaymentStatus.completed }

/-- The empty state. -/
def dbE : DB :=
  { users := [], customers := [], invoices := [], items := [], payments := [] }

/-- A sample invoice-creation request with items (2, 100) and (1, 50). -/
def invCreateA : InvoiceCreate :=
  { customer_id := "c1", status := InvoiceStatus.draft,
    items := [⟨"widget", 2, 100⟩, ⟨"gadget", 1, 50⟩] }

/-- A sample item-creation request of quantity 2 at unit price 100. -/
def itemCreateA : InvoiceItemCreate :=
  { description := "widget", quantity := 2, unit_price := 100 }

/-- An invoice of total 200 matching `itemB`. -/
def invoiceB : Invoice :=
  { id := "i1", user_id := "u1", customer_id := "c1",
    status := InvoiceStatus.sent, total_amount := 200, is_paid := false }

/-- An item row of `invoiceB`: quantity 2 at unit price 100. -/
def itemB : InvoiceItem :=
  { id := "t1", invoice_id := "i1", description := "widget",
    quantity := 2, unit_price := 100, total := 200 }

/-- A state holding `invoiceB` and its item `itemB`. -/
def dbB : DB :=
  { users := [], customers := [], invoices := [invoiceB], items := [itemB],
    payments := [] }

/-- A partial item update setting only the quantity to 3. -/
def updB : InvoiceItemUpdate :=
  { description := none, quantity := some 3, unit_price := none }

/-- A regular (non-super-admin) user. -/
def userU1 : User :=
  { id := "u1", name := "alice", email := "alice@example.com",
    password_hash := "h1", is_super_admin := false }

/-- A super-admin user. -/
def userAdmin : User :=
  { id := "u9", name := "root", email := "root@example.com",
    password_hash := "h9", is_super_admin := true }

/-- An invoice owned by another user `u2`. -/
def invoiceC2 : Invoice :=
  { id := "i2", user_id := "u2", customer_id := "c1",
    status := InvoiceStatus.draft, total_amount := 50, is_paid := false }

/-- A state with invoices of two different owners. -/
def dbC : DB :=
  { users := [userU1, userAdmin], customers := [],
    invoices := [invoiceB, invoiceC2], items := [], payments := [] }

/-- A state holding only the regular user `userU1`. -/
def dbU : DB :=
  { users := [userU1], customers := [], invoices := [], items := [],
    payments := [] }

/-- A self-update that touches only the `is_super_admin` field. -/
def updSelfAdmin : UserUpdate :=
  { name := none, email := none, is_super_admin := some false }

/-- A registration request with `is_super_admin = true`. -/
def regReq : UserCreate :=
  { name := "eve", email := "eve@example.com", is_super_admin := true,
    password := "pw" }

/-- A sample operation sequence: create an invoice with two items, add a
third item, update the first, delete the second. -/
def opsW : List Op :=
  [Op.createInv invCreateA "u1" "i1" ["t1", "t2"],
   Op.addItem itemCreateA "i1" "t3",
   Op.updItem "t1" updB,
   Op.delItem "t2"]

/-! ### Generic lemmas about first-match update and removal -/

theorem updateFirstBy_cons_pos {p : α → Bool} {f : α → α} {x : α} {xs : List α}
    (h : p x = true) : updateFirstBy p f (x :: xs) = f x :: xs := by
  simp [updateFirstBy, h]

theorem updateFirstBy_cons_neg {p : α → Bool} {f : α → α} {x : α} {xs : List α}
    (h : p x = false) : updateFirstBy p f (x :: xs) = x :: updateFirstBy p f xs := by
  simp [updateFirstBy, h]

theorem removeFirstBy_cons_pos {p : α → Bool} {x : α} {xs : List α}
    (h : p x = true) : removeFirstBy p (x :: xs) = xs := by
  simp [removeFirstBy, h]

theorem removeFirstBy_cons_neg {p : α → Bool} {x : α} {xs : List α}
    (h : p x = false) : removeFirstBy p (x :: xs) = x :: removeFirstBy p xs := by
  simp [removeFirstBy, h]

theorem updateFirstBy_of_forall_neg {p : α → Bool} {f : α → α} :
    ∀ {l : List α}, (∀ x ∈ l, p x = false) → updateFirstBy p f l = l
  | [], _ => rfl
  | x :: xs, h => by
    rw [updateFirstBy_cons_neg (h x (List.mem_cons_self x xs)),
      updateFirstBy_of_forall_neg (fun y hy => h y (List.mem_cons_of_mem x hy))]

theorem updateFirstBy_append_cons (p : α → Bool) (f : α → α) {s : List α}
    {a : α} {t : List α} (hs : ∀ x ∈ s, p x = false) (ha : p a = true) :
    updateFirstBy p f (s ++ a :: t) = s ++ f a :: t := by
  induction s with
  | nil => simpa [updateFirstBy] using updateFirstBy_cons_pos ha
  | cons x xs ih =>
    rw [List.cons_append, updateFirstBy_cons_neg (hs x (List.mem_cons_self x xs)),
      ih (fun y hy => hs y (List.mem_cons_of_mem x hy)), List.cons_append]

theorem removeFirstBy_append_cons (p : α → Bool) {s : List α}
    {a : α} {t : List α} (hs : ∀ x ∈ s, p x = false) (ha : p a = true) :
    removeFirstBy p (s ++ a :: t) = s ++ t := by
  induction s with
  | nil => simpa [removeFirstBy] using removeFirstBy_cons_pos ha
  | cons x xs ih =>
    rw [List.cons_append, removeFirstBy_cons_neg (hs x (List.mem_cons_self x xs)),
      ih (fun y hy => hs y (List.mem_cons_of_mem x hy)), List.cons_append]

/-- A `find?` keyed on one id, after a first-match update keyed on the same
id (with a key-preserving modification), returns the modified row. -/
theorem find?_updateFirstBy_same (k : α → String) (f : α → α)
    (hf : ∀ x, k (f x) = k x) (i : String) :
    ∀ l : List α,
      (updateFirstBy (fun x => k x == i) f l).find? (fun x => k x == i)
        = (l.find? (fun x => k x == i)).map f
  | [] => rfl
  | x :: xs => by
    cases h : (k x == i) with
    | true => simp [updateFirstBy, List.find?_cons, h, hf]
    | false =>
      simpa [updateFirstBy, List.find?_cons, h] using
        find?_updateFirstBy_same k f hf i xs

/-- A `find?` keyed on a different id is unaffected by a key-preserving
first-match update. -/
theorem find?_updateFirstBy_ne (k : α → String) (f : α → α)
    (hf : ∀ x, k (f x) = k x) {i j : String} (hij : i ≠ j) :
    ∀ l : List α,
      (updateFirstBy (fun x => k x == i) f l).find? (fun x => k x == j)
        = l.find? (fun x => k x == j)
  | [] => rfl
  | x :: xs => by
    cases h : (k x == i) with
    | true =>
      have hxi : k x = i := by simpa using h
      simp [updateFirstBy, List.find?_cons, h, hf, hxi,
        (by simpa using hij : (i == j) = false)]
    | false =>
      cases hj : (k x == j) with
      | true => simp [updateFirstBy, List.find?_cons, h, hj]
      | false =>
        simpa [updateFirstBy, List.find?_cons, h, hj] using
          find?_updateFirstBy_ne k f hf hij xs

/-- After removing the first row with a given key from a list with no
duplicate keys, no row with that key remains. -/
theorem find?_removeFirstBy_self_of_nodup (k : α → String) (i : String) :
    ∀ {l : List α}, (l.map k).Nodup →
      (removeFirstBy (fun x => k x == i) l).find? (fun x => k x == i) = none
  | [], _ => rfl
  | x :: xs, hnd => by
    have hx : ∀ y ∈ xs, k y ≠ k x := by
      intro y hy hk
      exact (List.nodup_cons.mp (by simpa using hnd)).1
        (hk ▸ List.mem_map_of_mem k hy)
    cases h : (k x == i) with
    | true =>
      have hxi : k x = i := by simpa using h
      have hrw : removeFirstBy (fun y => k y == i) (x :: xs) = xs := by
        simp [removeFirstBy, h]
      rw [hrw, List.find?_eq_none]
      intro y hy
      simp [show k y ≠ i from fun hki => hx y hy (hki.trans hxi.symm)]
    | false =>
      have hrw : removeFirstBy (fun y => k y == i) (x :: xs)
          = x :: removeFirstBy (fun y => k y == i) xs := by
        simp [removeFirstBy, h]
      rw [hrw]
      simpa [List.find?_cons, h] using
        find?_removeFirstBy_self_of_nodup k i
          (List.nodup_cons.mp (by simpa using hnd)).2

/-- A `find?` keyed on a different id is unaffected by a first-match
removal. -/
theorem find?_removeFirstBy_ne (k : α → String) {i j : String} (hij : i ≠ j) :
    ∀ l : List α,
      (removeFirstBy (fun x => k x == i) l).find? (fun x => k x == j)
        = l.find? (fun x => k x == j)
  | [] => rfl
  | x :: xs => by
    cases h : (k x == i) with
    | true =>
      have hxi : k x = i := by simpa using h
      simp [removeFirstBy, List.find?_cons, h, hxi,
        (by simpa using hij : (i == j) = false)]
    | false =>
      cases hj : (k x == j) with
      | true => simp [removeFirstBy, List.find?_cons, h, hj]
      | false =>
        simpa [removeFirstBy, List.find?_cons, h, hj] using
          find?_removeFirstBy_ne k hij xs

/-- Key multiset is preserved by a key-preserving first-match update. -/
theorem map_key_updateFirstBy (k : α → String) (f : α → α)
    (hf : ∀ x, k (f x) = k x) (p : α → Bool) :
    ∀ l : List α, (updateFirstBy p f l).map k = l.map k
  | [] => rfl
  | x :: xs => by
    cases h : p x with
    | true => simp [updateFirstBy, h, hf]
    | false => simp [updateFirstBy, h, map_key_updateFirstBy k f hf p xs]

/-! The invoice mutators above do not change the primary key. -/

theorem markPaid_id (inv : Invoice) : (markPaid inv).id = inv.id := rfl

theorem shiftTotal_id (d : ℚ) (inv : Invoice) :
    (shiftTotal d inv).id = inv.id := rfl

theorem adjustTotal_id (o n : ℚ) (inv : Invoice) :
    (adjustTotal o n inv).id = inv.id := rfl

theorem subtractTotal_id (d : ℚ) (inv : Invoice) :
    (subtractTotal d inv).id = inv.id := rfl

/-! ### Claim theorems -/

/-- C6: for every payment id and every partial payment update (any status
change, refunds included), `update_payment` leaves the invoice table — and
hence every invoice's `is_paid`, `status` and `total_amount` — unchanged;
`delete_payment` likewise.  In particular an invoice with `is_paid = true`
keeps it after its completed payments are refunded or deleted. -/
theorem payment_mutations_do_not_touch_invoices (db : DB)
    (payment_id : String) (upd : PaymentUpdate) :
    (update_payment db payment_id upd).1.invoices = db.invoices ∧
    (delete_payment db payment_id).1.invoices = db.invoices ∧
    (∀ invoice_id,
      get_invoice (update_payment db payment_id upd).1 invoice_id
        = get_invoice db invoice_id) ∧
    (∀ invoice_id,
      get_invoice (delete_payment db payment_id).1 invoice_id
        = get_invoice db invoice_id) := by
  have h1 : (update_payment db payment_id upd).1.invoices = db.invoices := by
    cases h : get_payment db payment_id <;> simp [update_payment, h]
  have h2 : (delete_payment db payment_id).1.invoices = db.invoices := by
    cases h : get_payment db payment_id <;> simp [delete_payment, h]
  exact ⟨h1, h2, fun i => by rw [get_invoice, h1]; rfl,
    fun i => by rw [get_invoice, h2]; rfl⟩

/-- C1: recording a payment on an existing invoice: if it is completed
and the previously completed payments plus its amount reach
`total_amount`, the invoice becomes `is_paid = true` with status `paid`;
if they stay strictly below, the invoice row is unchanged (so `is_paid`
stays false); if the payment is not completed, the invoice row is
unchanged. -/
theorem create_payment_paid_threshold (db : DB) (payment : PaymentCreate)
    (user_id new_id : String) (inv : Invoice)
    (h : get_invoice db payment.invoice_id = some inv) :
    (payment.status = PaymentStatus.completed →
      inv.total_amount ≤
          completedSum db.payments payment.invoice_id + payment.amount →
      get_invoice (create_payment db payment user_id new_id).1
          payment.invoice_id
        = some { inv with is_paid := true, status := InvoiceStatus.paid }) ∧
    (payment.status = PaymentStatus.completed →
      completedSum db.payments payment.invoice_id + payment.amount
          < inv.total_amount →
      get_invoice (create_payment db payment user_id new_id).1
          payment.invoice_id = some inv) ∧
    (payment.status ≠ PaymentStatus.completed →
      get_invoice (create_payment db payment user_id new_id).1
          payment.invoice_id = some inv) := by
  refine ⟨fun hst hle => ?_, fun hst hlt => ?_, fun hst => ?_⟩
  · have hinvs : (create_payment db payment user_id new_id).1.invoices
        = updateFirstBy (fun inv => inv.id == payment.invoice_id) markPaid
            db.invoices := by
      simp [create_payment, hst, h, hle]
    rw [get_invoice, hinvs,
      find?_updateFirstBy_same (fun inv => inv.id) markPaid
        markPaid_id payment.invoice_id db.invoices]
    rw [get_invoice] at h
    rw [h]
    rfl
  · have hinvs : (create_payment db payment user_id new_id).1.invoices
        = db.invoices := by
      simp [create_payment, hst, h, not_le.mpr hlt]
    rw [get_invoice, hinvs]
    exact h
  · have hinvs : (create_payment db payment user_id new_id).1.invoices
        = db.invoices := by
      simp [create_payment, beq_eq_false_iff_ne.mpr hst]
    rw [get_invoice, hinvs]
    exact h

/-- Witness for C1 at a concrete state: one invoice of total 100 with no
prior payments; a completed payment of 100 marks it paid. -/
theorem create_payment_paid_threshold_witness :
    get_invoice (create_payment dbA payA "u1" "p1").1 "i1"
      = some { invA with is_paid := true, status := InvoiceStatus.paid } :=
  (create_payment_paid_threshold dbA payA "u1" "p1" invA (by decide)).1
    rfl (by norm_num [completedSum, dbA, payA, invA])

/-- Every row built by `buildItems` references the new invoice, stores
`total = quantity * unit_price`, and carries one of the supplied ids. -/
theorem mem_buildItems {inv_id : String} :
    ∀ (ids : List String) (its : List InvoiceItemCreate) (it : InvoiceItem),
      it ∈ buildItems inv_id ids its →
      it.invoice_id = inv_id ∧ it.total = (it.quantity : ℚ) * it.unit_price
        ∧ it.id ∈ ids
  | [], its, it, h => by simp [buildItems] at h
  | _ :: _, [], it, h => by simp [buildItems] at h
  | iid :: ids, x :: xs, it, h => by
    rw [buildItems, List.mem_cons] at h
    rcases h with rfl | h
    · exact ⟨rfl, rfl, by simp [newItemRow]⟩
    · obtain ⟨h1, h2, h3⟩ := mem_buildItems ids xs it h
      exact ⟨h1, h2, by simp [h3]⟩

/-- C2: for every list of item specifications (empty included), the
invoice returned by `create_invoice` (under a fresh invoice id, as UUID
generation guarantees) carries `total_amount` equal to the sum of
`quantity * unit_price` over the supplied items, and every item row the
call persists stores `total = quantity * unit_price`. -/
theorem create_invoice_total (db : DB) (invoice : InvoiceCreate)
    (user_id inv_id : String) (item_ids : List String)
    (hfresh : get_invoice db inv_id = none) :
    (create_invoice db invoice user_id inv_id item_ids).2 =
      some { id := inv_id, user_id := user_id,
             customer_id := invoice.customer_id, status := invoice.status,
             total_amount := (invoice.items.map
               (fun it => (it.quantity : ℚ) * it.unit_price)).sum,
             is_paid := false } ∧
    ∀ it ∈ (create_invoice db invoice user_id inv_id item_ids).1.items,
      it ∈ db.items ∨ it.total = (it.quantity : ℚ) * it.unit_price := by
  have hf : db.invoices.find? (fun inv => inv.id == inv_id) = none := hfresh
  constructor
  · simp [create_invoice, get_invoice, newInvoiceRow, List.find?_append, hf]
  · intro it hmem
    have : it ∈ db.items ++ buildItems inv_id item_ids invoice.items := hmem
    rcases List.mem_append.mp this with h | h
    · exact Or.inl h
    · exact Or.inr (mem_buildItems item_ids invoice.items it h).2.1

/-- Witness for C2: items (2, 100) and (1, 50) produce an invoice of
total 250, as in the spec's example. -/
theorem create_invoice_total_witness :
    ((create_invoice dbE invCreateA "u1" "i1" ["t1", "t2"]).2 =
      some { id := "i1", user_id := "u1", customer_id := "c1",
             status := InvoiceStatus.draft, total_amount := 250,
             is_paid := false }) ∧
    ∀ it ∈ (create_invoice dbE invCreateA "u1" "i1" ["t1", "t2"]).1.items,
      it ∈ dbE.items ∨ it.total = (it.quantity : ℚ) * it.unit_price := by
  have h := create_invoice_total dbE invCreateA "u1" "i1" ["t1", "t2"] rfl
  refine ⟨?_, h.2⟩
  rw [h.1]
  norm_num [invCreateA]

/-- C4: adding an item (any quantity and unit price, zero and negative
included) to an existing invoice persists the item with
`total = quantity * unit_price` and increases the invoice's
`total_amount` by exactly that total. -/
theorem create_invoice_item_increments_total (db : DB)
    (item : InvoiceItemCreate) (invoice_id item_id : String) (inv : Invoice)
    (h : get_invoice db invoice_id = some inv) :
    (create_invoice_item db item invoice_id item_id).2.total
        = (item.quantity : ℚ) * item.unit_price ∧
    (create_invoice_item db item invoice_id item_id).1.items
        = db.items ++ [(create_invoice_item db item invoice_id item_id).2] ∧
    get_invoice (create_invoice_item db item invoice_id item_id).1 invoice_id
      = some { inv with total_amount :=
          inv.total_amount + (item.quantity : ℚ) * item.unit_price } := by
  refine ⟨rfl, rfl, ?_⟩
  have hinvs : (create_invoice_item db item invoice_id item_id).1.invoices
      = updateFirstBy (fun i2 => i2.id == invoice_id)
          (shiftTotal ((item.quantity : ℚ) * item.unit_price))
          db.invoices := by
    simp [create_invoice_item, h]
  rw [get_invoice, hinvs,
    find?_updateFirstBy_same (fun i2 => i2.id)
      (shiftTotal ((item.quantity : ℚ) * item.unit_price))
      (shiftTotal_id ((item.quantity : ℚ) * item.unit_price)) invoice_id
      db.invoices]
  rw [get_invoice] at h
  rw [h]
  rfl

/-- Witness for C4: adding a (2, 100) item to `invoiceB` (total 200)
yields total 400. -/
theorem create_invoice_item_increments_total_witness :
    get_invoice (create_invoice_item dbB itemCreateA "i1" "t2").1 "i1"
      = some { invoiceB with total_amount := 400 } := by
  have h := create_invoice_item_increments_total dbB itemCreateA "i1" "t2"
    invoiceB rfl
  rw [h.2.2]
  norm_num [itemCreateA, invoiceB]

/-- C3: updating an existing item (any subset of description, quantity,
unit price) recomputes its `total` as `quantity * unit_price` and shifts
the owning invoice's `total_amount` by exactly the delta of the item's
totals, every other item row being untouched; a nonexistent item id
returns `none` and changes nothing. -/
theorem update_invoice_item_delta (db : DB) (item_id : String)
    (upd : InvoiceItemUpdate) (db_item : InvoiceItem) (inv : Invoice)
    (hit : get_invoice_item db item_id = some db_item)
    (hinv : get_invoice db db_item.invoice_id = some inv) :
    (update_invoice_item db item_id upd).2
        = some (recomputedItem db_item upd) ∧
    (recomputedItem db_item upd).total
        = ((recomputedItem db_item upd).quantity : ℚ)
            * (recomputedItem db_item upd).unit_price ∧
    get_invoice (update_invoice_item db item_id upd).1 db_item.invoice_id
      = some { inv with total_amount :=
          inv.total_amount - db_item.total
            + (recomputedItem db_item upd).total } ∧
    (∃ s t, db.items = s ++ db_item :: t ∧
      (update_invoice_item db item_id upd).1.items
        = s ++ recomputedItem db_item upd :: t) ∧
    (∀ db2 item_id2, get_invoice_item db2 item_id2 = none →
      update_invoice_item db2 item_id2 upd = (db2, none)) := by
  refine ⟨?_, rfl, ?_, ?_, ?_⟩
  · simp [update_invoice_item, hit]
  · have hinvs : (update_invoice_item db item_id upd).1.invoices
        = updateFirstBy (fun i2 => i2.id == db_item.invoice_id)
            (adjustTotal db_item.total (recomputedItem db_item upd).total)
            db.invoices := by
      simp [update_invoice_item, hit, hinv]
    rw [get_invoice, hinvs,
      find?_updateFirstBy_same (fun i2 => i2.id)
        (adjustTotal db_item.total (recomputedItem db_item upd).total)
        (adjustTotal_id db_item.total (recomputedItem db_item upd).total)
        db_item.invoice_id db.invoices]
    rw [get_invoice] at hinv
    rw [hinv]
    rfl
  · obtain ⟨hp, s, t, hl, hs⟩ := List.find?_eq_some.mp hit
    have hitems : (update_invoice_item db item_id upd).1.items
        = updateFirstBy (fun it => it.id == item_id)
            (fun _ => recomputedItem db_item upd) db.items := by
      simp [update_invoice_item, hit]
    refine ⟨s, t, hl, ?_⟩
    rw [hitems, hl,
      updateFirstBy_append_cons (fun it => it.id == item_id)
        (fun _ => recomputedItem db_item upd)
        (fun x hx => by simpa using hs x hx) hp]
  · intro db2 item_id2 h0
    simp [update_invoice_item, h0]

/-- Witness for C3: setting `itemB`'s quantity to 3 moves its total from
200 to 300 and `invoiceB`'s total from 200 to 300. -/
theorem update_invoice_item_delta_witness :
    get_invoice (update_invoice_item dbB "t1" updB).1 "i1"
      = some { invoiceB with total_amount := 300 } := by
  have h3 := (update_invoice_item_delta dbB "t1" updB itemB invoiceB rfl rfl).2.2.1
  norm_num [recomputedItem, applyItemUpdate, updB, itemB, invoiceB] at h3 ⊢
  exact h3

/-- C7: listing invoices or payments returns, for a non-super-admin, the
(paginated) list of exactly the rows owned by the caller — every returned
row is the caller's — and, for a super-admin, the unfiltered (paginated)
list.  Callers have nonempty (UUID) ids. -/
theorem listings_scoped_by_role (db : DB) (cu : User) (skip limit : ℕ)
    (hid : cu.id ≠ "") :
    (cu.is_super_admin = false →
      read_invoices_route db cu skip limit
        = ((db.invoices.filter
            (fun inv => inv.user_id == cu.id)).drop skip).take limit ∧
      read_payments_route db cu none skip limit
        = ((db.payments.filter
            (fun p => p.user_id == cu.id)).drop skip).take limit ∧
      (∀ inv ∈ read_invoices_route db cu skip limit, inv.user_id = cu.id) ∧
      (∀ p ∈ read_payments_route db cu none skip limit, p.user_id = cu.id)) ∧
    (cu.is_super_admin = true →
      read_invoices_route db cu skip limit
        = (db.invoices.drop skip).take limit ∧
      read_payments_route db cu none skip limit
        = (db.payments.drop skip).take limit) := by
  constructor
  · intro hadm
    have hbe : (cu.id == "") = false := beq_eq_false_iff_ne.mpr hid
    have h1 : read_invoices_route db cu skip limit
        = ((db.invoices.filter
            (fun inv => inv.user_id == cu.id)).drop skip).take limit := by
      simp [read_invoices_route, get_invoices, hadm, hbe]
    have h2 : read_payments_route db cu none skip limit
        = ((db.payments.filter
            (fun p => p.user_id == cu.id)).drop skip).take limit := by
      simp [read_payments_route, get_payments, hadm, hbe]
    refine ⟨h1, h2, ?_, ?_⟩
    · intro inv hmem
      rw [h1] at hmem
      have hm := List.mem_filter.mp
        (List.mem_of_mem_drop (List.mem_of_mem_take hmem))
      simpa using hm.2
    · intro p hmem
      rw [h2] at hmem
      have hm := List.mem_filter.mp
        (List.mem_of_mem_drop (List.mem_of_mem_take hmem))
      simpa using hm.2
  · intro hadm
    exact ⟨by simp [read_invoices_route, get_invoices, hadm],
      by simp [read_payments_route, get_payments, hadm]⟩

/-- Witness for C7: `userU1` sees only their invoice; the super-admin
sees both. -/
theorem listings_scoped_by_role_witness :
    read_invoices_route dbC userU1 0 100 = [invoiceB] ∧
    read_invoices_route dbC userAdmin 0 100 = [invoiceB, invoiceC2] := by
  have h1 := (listings_scoped_by_role dbC userU1 0 100 (by decide)).1 rfl
  have h2 := (listings_scoped_by_role dbC userAdmin 0 100 (by decide)).2 rfl
  exact ⟨by rw [h1.1]; rfl, by rw [h2.1]; rfl⟩

/-- C9: deleting an existing invoice removes the invoice and all of its
items (the cascade of `Invoice.items`): afterwards the invoice and each
of its former items fetch as `none`, and no surviving item references the
deleted invoice.  Primary keys are unique. -/
theorem delete_invoice_cascades (db : DB) (invoice_id : String)
    (inv : Invoice)
    (hinv : get_invoice db invoice_id = some inv)
    (hnd1 : (db.invoices.map (fun i2 => i2.id)).Nodup)
    (hnd2 : (db.items.map (fun it => it.id)).Nodup) :
    (delete_invoice db invoice_id).2 = true ∧
    get_invoice (delete_invoice db invoice_id).1 invoice_id = none ∧
    (∀ it ∈ db.items, it.invoice_id = invoice_id →
      get_invoice_item (delete_invoice db invoice_id).1 it.id = none) ∧
    ∀ it ∈ (delete_invoice db invoice_id).1.items,
      it.invoice_id ≠ invoice_id := by
  have hinvs : (delete_invoice db invoice_id).1.invoices
      = removeFirstBy (fun i2 => i2.id == invoice_id) db.invoices := by
    simp [delete_invoice, hinv]
  have hitems : (delete_invoice db invoice_id).1.items
      = db.items.filter (fun it => !(it.invoice_id == invoice_id)) := by
    simp [delete_invoice, hinv]
  refine ⟨by simp [delete_invoice, hinv], ?_, ?_, ?_⟩
  · rw [get_invoice, hinvs]
    exact find?_removeFirstBy_self_of_nodup (fun i2 : Invoice => i2.id)
      invoice_id hnd1
  · intro it hmem hiid
    rw [get_invoice_item, hitems, List.find?_eq_none]
    intro y hy hbeq
    have hyf := List.mem_filter.mp hy
    have hy_eq : y = it :=
      List.inj_on_of_nodup_map hnd2 hyf.1 hmem (by simpa using hbeq)
    rw [hy_eq] at hyf
    simp [hiid] at hyf
  · intro it hmem
    rw [hitems] at hmem
    simpa using (List.mem_filter.mp hmem).2

/-- Witness for C9 on `dbB`: deleting invoice i1 removes it and its item
t1. -/
theorem delete_invoice_cascades_witness :
    (delete_invoice dbB "i1").2 = true ∧
    get_invoice (delete_invoice dbB "i1").1 "i1" = none ∧
    get_invoice_item (delete_invoice dbB "i1").1 "t1" = none := by
  have h := delete_invoice_cascades dbB "i1" invoiceB rfl (by decide) (by decide)
  exact ⟨h.1, h.2.1, h.2.2.1 itemB (by simp [dbB]) rfl⟩

/-- C10: registration runs with no authenticated caller (the handler takes
none) and honors the request's `is_super_admin` field: for a free email
and `is_super_admin = true`, the created and returned user is a
super-admin. -/
theorem register_no_auth_honors_super_admin (db : DB) (user : UserCreate)
    (new_id : String) (hash : String → String)
    (hfree : get_user_by_email db user.email = none)
    (hsa : user.is_super_admin = true) :
    (register_route db user new_id hash).2
      = ApiResult.ok
          { id := new_id, name := user.name, email := user.email,
            password_hash := hash user.password, is_super_admin := true } ∧
    ({ id := new_id, name := user.name, email := user.email,
       password_hash := hash user.password, is_super_admin := true } : User)
      ∈ (register_route db user new_id hash).1.users := by
  constructor
  · simp [register_route, hfree, create_user, hsa]
  · simp [register_route, hfree, create_user, hsa]

/-- Witness for C10: an anonymous registration that yields a super-admin
account. -/
theorem register_no_auth_honors_super_admin_witness :
    (register_route dbE regReq "u7" id).2
      = ApiResult.ok
          { id := "u7", name := "eve", email := "eve@example.com",
            password_hash := "pw", is_super_admin := true } :=
  (register_no_auth_honors_super_admin dbE regReq "u7" id rfl rfl).1

/-- The common ownership gate `if not super_admin and owner != caller:
403`: it yields Forbidden exactly for a non-super-admin non-owner,
whatever non-Forbidden outcome the rest of the handler produces. -/
theorem forbidden_iff_aux {α : Type} (a : Bool) (x y : String)
    (r : ApiResult α) (hr : r ≠ ApiResult.forbidden) :
    ((if (!a && x != y) = true then ApiResult.forbidden else r)
        = ApiResult.forbidden)
      ↔ (a = false ∧ x ≠ y) := by
  cases ha : a <;> cases hxy : x != y <;> simp_all [bne_iff_ne]

/-- `read_invoice` 403s exactly for a non-super-admin non-owner. -/
theorem read_invoice_forbidden_iff (db : DB) (cu : User)
    (invoice_id : String) (inv : Invoice)
    (h : get_invoice db invoice_id = some inv) :
    (read_invoice_route db invoice_id cu = ApiResult.forbidden)
      ↔ (cu.is_super_admin = false ∧ inv.user_id ≠ cu.id) := by
  simp only [read_invoice_route, h]
  exact forbidden_iff_aux cu.is_super_admin inv.user_id cu.id
    (ApiResult.ok inv) (by simp)

/-- `read_payment` 403s exactly for a non-super-admin non-owner. -/
theorem read_payment_forbidden_iff (db : DB) (cu : User)
    (payment_id : String) (p : Payment)
    (h : get_payment db payment_id = some p) :
    (read_payment_route db payment_id cu = ApiResult.forbidden)
      ↔ (cu.is_super_admin = false ∧ p.user_id ≠ cu.id) := by
  simp only [read_payment_route, h]
  exact forbidden_iff_aux cu.is_super_admin p.user_id cu.id
    (ApiResult.ok p) (by simp)

/-- `update_invoice` 403s exactly for a non-super-admin non-owner. -/
theorem update_invoice_forbidden_iff (db : DB) (cu : User)
    (invoice_id : String) (upd : InvoiceUpdate) (inv : Invoice)
    (h : get_invoice db invoice_id = some inv) :
    ((update_invoice_route db invoice_id upd cu).2 = ApiResult.forbidden)
      ↔ (cu.is_super_admin = false ∧ inv.user_id ≠ cu.id) := by
  simp only [update_invoice_route, h]
  cases hc : (!cu.is_super_admin && inv.user_id != cu.id) with
  | true =>
    simp only [if_pos rfl]
    simpa [bne_iff_ne] using hc
  | false =>
    rw [if_neg (by simp [hc])]
    have hne : ¬(cu.is_super_admin = false ∧ inv.user_id ≠ cu.id) := by
      simpa [bne_iff_ne] using hc
    rcases hcid : upd.customer_id with _ | cid
    · simp [update_invoice, h, hne]
    · cases hcust : get_customer db cid <;>
        simp [update_invoice, h, hne, hcust]

/-- `delete_invoice` (router) 403s exactly for a non-super-admin
non-owner. -/
theorem delete_invoice_forbidden_iff (db : DB) (cu : User)
    (invoice_id : String) (inv : Invoice)
    (h : get_invoice db invoice_id = some inv) :
    ((delete_invoice_route db invoice_id cu).2 = ApiResult.forbidden)
      ↔ (cu.is_super_admin = false ∧ inv.user_id ≠ cu.id) := by
  simp only [delete_invoice_route, h]
  cases hc : (!cu.is_super_admin && inv.user_id != cu.id) with
  | true =>
    simp only [if_pos rfl]
    simpa [bne_iff_ne] using hc
  | false =>
    rw [if_neg (by simp [hc])]
    have hne : ¬(cu.is_super_admin = false ∧ inv.user_id ≠ cu.id) := by
      simpa [bne_iff_ne] using hc
    simp [delete_invoice, h, hne]

/-- `update_payment` (router) 403s exactly for a non-super-admin
non-owner. -/
theorem update_payment_forbidden_iff (db : DB) (cu : User)
    (payment_id : String) (upd : PaymentUpdate) (p : Payment)
    (h : get_payment db payment_id = some p) :
    ((update_payment_route db payment_id upd cu).2 = ApiResult.forbidden)
      ↔ (cu.is_super_admin = false ∧ p.user_id ≠ cu.id) := by
  simp only [update_payment_route, h]
  cases hc : (!cu.is_super_admin && p.user_id != cu.id) with
  | true =>
    simp only [if_pos rfl]
    simpa [bne_iff_ne] using hc
  | false =>
    rw [if_neg (by simp [hc])]
    have hne : ¬(cu.is_super_admin = false ∧ p.user_id ≠ cu.id) := by
      simpa [bne_iff_ne] using hc
    simp [update_payment, h, hne]

/-- `delete_payment` (router) 403s exactly for a non-super-admin
non-owner. -/
theorem delete_payment_forbidden_iff (db : DB) (cu : User)
    (payment_id : String) (p : Payment)
    (h : get_payment db payment_id = some p) :
    ((delete_payment_route db payment_id cu).2 = ApiResult.forbidden)
      ↔ (cu.is_super_admin = false ∧ p.user_id ≠ cu.id) := by
  simp only [delete_payment_route, h]
  cases hc : (!cu.is_super_admin && p.user_id != cu.id) with
  | true =>
    simp only [if_pos rfl]
    simpa [bne_iff_ne] using hc
  | false =>
    rw [if_neg (by simp [hc])]
    have hne : ¬(cu.is_super_admin = false ∧ p.user_id ≠ cu.id) := by
      simpa [bne_iff_ne] using hc
    simp [delete_payment, h, hne]

/-- `read_user` 403s exactly for a non-super-admin reading someone
else's record. -/
theorem read_user_forbidden_iff (db : DB) (cu : User) (user_id : String)
    (u : User) (h : get_user db user_id = some u) :
    (read_user_route db user_id cu = ApiResult.forbidden)
      ↔ (cu.is_super_admin = false ∧ user_id ≠ cu.id) := by
  simp only [read_user_route]
  cases hc : (user_id != cu.id && !cu.is_super_admin) with
  | true =>
    simp only [if_pos rfl]
    have := hc
    simp [bne_iff_ne] at this
    simp [this]
  | false =>
    rw [if_neg (by simp [hc])]
    have hne : ¬(cu.is_super_admin = false ∧ user_id ≠ cu.id) := by
      intro ⟨h1, h2⟩
      simp [bne_iff_ne, h1, h2] at hc
    simp [h, hne]

/-- `update_user` 403s exactly when the caller is a non-super-admin and
either targets someone else's record or supplies the `is_super_admin`
field at all (even on their own record). -/
theorem update_user_forbidden_iff (db : DB) (cu : User) (user_id : String)
    (upd : UserUpdate) (u : User) (h : get_user db user_id = some u) :
    ((update_user_route db user_id upd cu).2 = ApiResult.forbidden)
      ↔ (cu.is_super_admin = false ∧
          (user_id ≠ cu.id ∨ upd.is_super_admin.isSome = true)) := by
  simp only [update_user_route]
  cases hc : (user_id != cu.id && !cu.is_super_admin) with
  | true =>
    simp only [if_pos rfl]
    have := hc
    simp [bne_iff_ne] at this
    simp [this]
  | false =>
    rw [if_neg (by simp [hc])]
    cases hc2 : (upd.is_super_admin.isSome && !cu.is_super_admin) with
    | true =>
      simp only [if_pos rfl]
      have := hc2
      simp at this
      simp [this]
    | false =>
      rw [if_neg (by simp [hc2])]
      have hne : ¬(cu.is_super_admin = false ∧
          (user_id ≠ cu.id ∨ upd.is_super_admin.isSome = true)) := by
        intro ⟨h1, h2⟩
        rcases h2 with h2 | h2
        · simp [bne_iff_ne, h1, h2] at hc
        · simp [h1, h2] at hc2
      simp [update_user, h, hne]

/-- `delete_user` (super-admin-only dependency, modelled from the spec)
403s exactly for any non-super-admin, the record's own subject
included. -/
theorem delete_user_forbidden_iff (db : DB) (cu : User) (user_id : String)
    (u : User) (h : get_user db user_id = some u) :
    ((delete_user_route db user_id cu).2 = ApiResult.forbidden)
      ↔ cu.is_super_admin = false := by
  simp only [delete_user_route]
  cases hadm : cu.is_super_admin with
  | true => simp [hadm, delete_user, h]
  | false => simp [hadm]

/-- Counterexample to C8 as stated: `userU1` (not a super-admin) updates
their own existing user record — so by the claim no Forbidden may be
raised — yet, because the payload contains the `is_super_admin` field,
the handler returns Forbidden. -/
theorem update_user_forbidden_for_own_record :
    (update_user_route dbU "u1" updSelfAdmin userU1).2 = ApiResult.forbidden
      ∧ userU1.id = "u1"
      ∧ userU1.is_super_admin = false
      ∧ get_user dbU "u1" = some userU1 := by
  refine ⟨rfl, rfl, rfl, rfl⟩

/-- C8 (amended): for every existing invoice, payment or user record,
read/update/delete raises Forbidden iff the caller is not a super-admin
and not the owner (for user records, not the subject) — except that on
user records, an update whose payload includes the `is_super_admin`
field is Forbidden for every non-super-admin even on their own record,
and deletion is Forbidden for every non-super-admin, the subject
included. -/
theorem authz_forbidden_iff_amended :
    (∀ db cu invoice_id inv, get_invoice db invoice_id = some inv →
      ((read_invoice_route db invoice_id cu = ApiResult.forbidden)
        ↔ (cu.is_super_admin = false ∧ inv.user_id ≠ cu.id))) ∧
    (∀ db cu invoice_id upd inv, get_invoice db invoice_id = some inv →
      (((update_invoice_route db invoice_id upd cu).2 = ApiResult.forbidden)
        ↔ (cu.is_super_admin = false ∧ inv.user_id ≠ cu.id))) ∧
    (∀ db cu invoice_id inv, get_invoice db invoice_id = some inv →
      (((delete_invoice_route db invoice_id cu).2 = ApiResult.forbidden)
        ↔ (cu.is_super_admin = false ∧ inv.user_id ≠ cu.id))) ∧
    (∀ db cu payment_id p, get_payment db payment_id = some p →
      ((read_payment_route db payment_id cu = ApiResult.forbidden)
        ↔ (cu.is_super_admin = false ∧ p.user_id ≠ cu.id))) ∧
    (∀ db cu payment_id upd p, get_payment db payment_id = some p →
      (((update_payment_route db payment_id upd cu).2 = ApiResult.forbidden)
        ↔ (cu.is_super_admin = false ∧ p.user_id ≠ cu.id))) ∧
    (∀ db cu payment_id p, get_payment db payment_id = some p →
      (((delete_payment_route db payment_id cu).2 = ApiResult.forbidden)
        ↔ (cu.is_super_admin = false ∧ p.user_id ≠ cu.id))) ∧
    (∀ db cu user_id u, get_user db user_id = some u →
      ((read_user_route db user_id cu = ApiResult.forbidden)
        ↔ (cu.is_super_admin = false ∧ user_id ≠ cu.id))) ∧
    (∀ db cu user_id upd u, get_user db user_id = some u →
      (((update_user_route db user_id upd cu).2 = ApiResult.forbidden)
        ↔ (cu.is_super_admin = false ∧
            (user_id ≠ cu.id ∨ upd.is_super_admin.isSome = true)))) ∧
    (∀ db cu user_id u, get_user db user_id = some u →
      (((delete_user_route db user_id cu).2 = ApiResult.forbidden)
        ↔ cu.is_super_admin = false)) :=
  ⟨fun db cu i inv h => read_invoice_forbidden_iff db cu i inv h,
   fun db cu i upd inv h => update_invoice_forbidden_iff db cu i upd inv h,
   fun db cu i inv h => delete_invoice_forbidden_iff db cu i inv h,
   fun db cu i p h => read_payment_forbidden_iff db cu i p h,
   fun db cu i upd p h => update_payment_forbidden_iff db cu i upd p h,
   fun db cu i p h => delete_payment_forbidden_iff db cu i p h,
   fun db cu i u h => read_user_forbidden_iff db cu i u h,
   fun db cu i upd u h => update_user_forbidden_iff db cu i upd u h,
   fun db cu i u h => delete_user_forbidden_iff db cu i u h⟩

/-- Witness for the amended C8: on `dbC`, non-admin `userU1` is refused
on `invoiceC2` (owned by u2) but not on their own `invoiceB`, and the
super-admin is refused on neither. -/
theorem authz_forbidden_iff_amended_witness :
    read_invoice_route dbC "i2" userU1 = ApiResult.forbidden ∧
    ¬read_invoice_route dbC "i1" userU1 = ApiResult.forbidden ∧
    ¬read_invoice_route dbC "i2" userAdmin = ApiResult.forbidden :=
  ⟨(authz_forbidden_iff_amended.1 dbC userU1 "i2" invoiceC2 rfl).mpr
      (by decide),
   fun hf => by
     have := (authz_forbidden_iff_amended.1 dbC userU1 "i1" invoiceB rfl).mp hf
     exact absurd this (by decide),
   fun hf => by
     have := (authz_forbidden_iff_amended.1 dbC userAdmin "i2" invoiceC2
       rfl).mp hf
     exact absurd this (by decide)⟩

/-! ### Lemmas towards the accounting invariant (C5) -/

theorem itemsTotal_append (l₁ l₂ : List InvoiceItem) (j : String) :
    itemsTotal (l₁ ++ l₂) j = itemsTotal l₁ j + itemsTotal l₂ j := by
  simp [itemsTotal, List.filter_append]

theorem itemsTotal_cons (a : InvoiceItem) (l : List InvoiceItem) (j : String) :
    itemsTotal (a :: l) j
      = (if a.invoice_id == j then a.total else 0) + itemsTotal l j := by
  simp only [itemsTotal, List.filter_cons]
  cases h : (a.invoice_id == j) <;> simp [h]

theorem itemsTotal_eq_zero_of_forall_ne {l : List InvoiceItem} {j : String}
    (h : ∀ it ∈ l, it.invoice_id ≠ j) : itemsTotal l j = 0 := by
  have : l.filter (fun it => it.invoice_id == j) = [] :=
    List.filter_eq_nil_iff.mpr (fun it hit => by simp [h it hit])
  simp [itemsTotal, this]

theorem map_id_buildItems {inv_id : String} :
    ∀ (ids : List String) (its : List InvoiceItemCreate),
      ids.length = its.length →
      (buildItems inv_id ids its).map (fun it => it.id) = ids
  | [], [], _ => rfl
  | [], _ :: _, h => by simp at h
  | _ :: _, [], h => by simp at h
  | iid :: ids, x :: xs, h => by
    rw [buildItems, List.map_cons, map_id_buildItems ids xs (by simpa using h)]
    rfl

theorem itemsTotal_buildItems_self {inv_id : String} :
    ∀ (ids : List String) (its : List InvoiceItemCreate),
      ids.length = its.length →
      itemsTotal (buildItems inv_id ids its) inv_id
        = (its.map (fun it => (it.quantity : ℚ) * it.unit_price)).sum
  | [], [], _ => rfl
  | [], _ :: _, h => by simp at h
  | _ :: _, [], h => by simp at h
  | iid :: ids, x :: xs, h => by
    rw [buildItems, itemsTotal_cons,
      itemsTotal_buildItems_self ids xs (by simpa using h)]
    simp [newItemRow]

theorem itemsTotal_buildItems_ne {inv_id j : String} (hne : j ≠ inv_id) :
    ∀ (ids : List String) (its : List InvoiceItemCreate),
      itemsTotal (buildItems inv_id ids its) j = 0 := by
  intro ids its
  refine itemsTotal_eq_zero_of_forall_ne (fun it hit => ?_)
  rw [(mem_buildItems ids its it hit).1]
  exact fun hcon => hne hcon.symm

/-- In a list whose keys are all distinct, no element of the surrounding
segments shares the key of the middle element. -/
theorem ne_key_of_nodup_split (k : α → String) {s : List α} {a : α}
    {t : List α} (hnd : ((s ++ a :: t).map k).Nodup) :
    ∀ x, (x ∈ s ∨ x ∈ t) → k x ≠ k a := by
  rw [List.map_append, List.map_cons] at hnd
  rw [List.nodup_append] at hnd
  obtain ⟨hs, hat, hdisj⟩ := hnd
  intro x hx hk
  rcases hx with hx | hx
  · exact hdisj (List.mem_map_of_mem k hx) (by simp [hk])
  · exact (List.nodup_cons.mp hat).1 (hk ▸ List.mem_map_of_mem k hx)

theorem itemsTotal_nil (j : String) : itemsTotal [] j = 0 := rfl

theorem itemsTotal_singleton (a : InvoiceItem) (j : String) :
    itemsTotal [a] j = if a.invoice_id == j then a.total else 0 := by
  rw [itemsTotal_cons, itemsTotal_nil, add_zero]

/-- `create_invoice` preserves key uniqueness and the accounting
equations. -/
theorem step_createInv (db : DB) (invoice : InvoiceCreate)
    (uid iid : String) (ids : List String) (hW : Wf db) (hT : TotalsInv db)
    (hF : FreshOp db (Op.createInv invoice uid iid ids)) :
    Wf (applyOp db (Op.createInv invoice uid iid ids)) ∧
    TotalsInv (applyOp db (Op.createInv invoice uid iid ids)) := by
  obtain ⟨hiid, hnoref, hids_nd, hlen, hids_fresh⟩ := hF
  constructor
  · constructor
    · show ((db.invoices ++ [newInvoiceRow invoice uid iid]).map
        (fun i2 => i2.id)).Nodup
      rw [List.map_append, List.nodup_append]
      refine ⟨hW.1, by simp, ?_⟩
      intro a ha hb
      simp [newInvoiceRow] at hb
      exact hiid (hb ▸ ha)
    · show ((db.items ++ buildItems iid ids invoice.items).map
        (fun it => it.id)).Nodup
      rw [List.map_append, map_id_buildItems ids invoice.items hlen,
        List.nodup_append]
      exact ⟨hW.2, hids_nd, fun a ha hb => hids_fresh a hb ha⟩
  · constructor
    · intro inv hmem
      have hmem' : inv ∈ db.invoices ++ [newInvoiceRow invoice uid iid] := hmem
      rw [List.mem_append] at hmem'
      show inv.total_amount
        = itemsTotal (db.items ++ buildItems iid ids invoice.items) inv.id
      rcases hmem' with hmem' | hmem'
      · have hne : inv.id ≠ iid :=
          fun hcon => hiid (hcon ▸ List.mem_map_of_mem _ hmem')
        rw [itemsTotal_append, itemsTotal_buildItems_ne hne ids invoice.items,
          add_zero]
        exact hT.1 inv hmem'
      · have heq : inv = newInvoiceRow invoice uid iid := by simpa using hmem'
        rw [heq]
        show (newInvoiceRow invoice uid iid).total_amount
          = itemsTotal (db.items ++ buildItems iid ids invoice.items) iid
        rw [itemsTotal_append, itemsTotal_buildItems_self ids invoice.items hlen,
          itemsTotal_eq_zero_of_forall_ne hnoref, zero_add]
        rfl
    · intro it hmem
      have hmem' : it ∈ db.items ++ buildItems iid ids invoice.items := hmem
      rw [List.mem_append] at hmem'
      rcases hmem' with h | h
      · exact hT.2 it h
      · exact (mem_buildItems ids invoice.items it h).2.1

/-- `create_invoice_item` preserves key uniqueness and the accounting
equations. -/
theorem step_addItem (db : DB) (item : InvoiceItemCreate)
    (invoice_id item_id : String) (hW : Wf db) (hT : TotalsInv db)
    (hF : FreshOp db (Op.addItem item invoice_id item_id)) :
    Wf (applyOp db (Op.addItem item invoice_id item_id)) ∧
    TotalsInv (applyOp db (Op.addItem item invoice_id item_id)) := by
  have hFfresh : item_id ∉ db.items.map (fun it => it.id) := hF
  have hitem_nodup : ((db.items ++ [newItemRow item invoice_id item_id]).map
      (fun it => it.id)).Nodup := by
    rw [List.map_append, List.nodup_append]
    refine ⟨hW.2, by simp, ?_⟩
    intro a ha hb
    simp [newItemRow] at hb
    exact hFfresh (hb ▸ ha)
  have hTitems : ∀ it ∈ db.items ++ [newItemRow item invoice_id item_id],
      it.total = (it.quantity : ℚ) * it.unit_price := by
    intro it hm
    rw [List.mem_append] at hm
    rcases hm with hm | hm
    · exact hT.2 it hm
    · have heq : it = newItemRow item invoice_id item_id := by simpa using hm
      rw [heq]; rfl
  cases hinv : get_invoice db invoice_id with
  | none =>
    have happ : applyOp db (Op.addItem item invoice_id item_id)
        = { db with
            items := db.items ++ [newItemRow item invoice_id item_id],
            invoices := db.invoices } := by
      simp [applyOp, create_invoice_item, hinv]
    rw [happ]
    have hnotin : ∀ inv ∈ db.invoices, inv.id ≠ invoice_id := by
      intro inv hm hcon
      rw [get_invoice, List.find?_eq_none] at hinv
      exact hinv inv hm (by simp [hcon])
    refine ⟨⟨hW.1, hitem_nodup⟩, ?_, hTitems⟩
    intro inv hm
    have hm' : inv ∈ db.invoices := hm
    show inv.total_amount
      = itemsTotal (db.items ++ [newItemRow item invoice_id item_id]) inv.id
    rw [itemsTotal_append, itemsTotal_singleton]
    have hbe : ((newItemRow item invoice_id item_id).invoice_id == inv.id)
        = false :=
      beq_eq_false_iff_ne.mpr (fun hc => hnotin inv hm' hc.symm)
    rw [hbe]
    simp [hT.1 inv hm']
  | some inv0 =>
    obtain ⟨hp, s, t, hl, hs⟩ := List.find?_eq_some.mp hinv
    have hiid : inv0.id = invoice_id := by simpa using hp
    have happ : applyOp db (Op.addItem item invoice_id item_id)
        = { db with
            items := db.items ++ [newItemRow item invoice_id item_id],
            invoices := updateFirstBy (fun i2 => i2.id == invoice_id)
              (shiftTotal ((item.quantity : ℚ) * item.unit_price))
              db.invoices } := by
      simp [applyOp, create_invoice_item, hinv]
    rw [happ]
    have hupd : updateFirstBy (fun i2 => i2.id == invoice_id)
        (shiftTotal ((item.quantity : ℚ) * item.unit_price)) db.invoices
        = s ++ shiftTotal ((item.quantity : ℚ) * item.unit_price) inv0 :: t := by
      rw [hl]
      exact updateFirstBy_append_cons (fun i2 => i2.id == invoice_id)
        (shiftTotal ((item.quantity : ℚ) * item.unit_price))
        (fun x hx => by simpa using hs x hx) hp
    have hnd_split : ((s ++ inv0 :: t).map (fun i2 => i2.id)).Nodup := by
      rw [← hl]; exact hW.1
    constructor
    · refine ⟨?_, hitem_nodup⟩
      show ((updateFirstBy (fun i2 => i2.id == invoice_id)
        (shiftTotal ((item.quantity : ℚ) * item.unit_price))
        db.invoices).map (fun i2 => i2.id)).Nodup
      rw [map_key_updateFirstBy (fun i2 : Invoice => i2.id)
        (shiftTotal ((item.quantity : ℚ) * item.unit_price))
        (shiftTotal_id ((item.quantity : ℚ) * item.unit_price)) _ db.invoices]
      exact hW.1
    · refine ⟨?_, hTitems⟩
      have hside : ∀ inv2 : Invoice, (inv2 ∈ s ∨ inv2 ∈ t) →
          inv2.total_amount
            = itemsTotal (db.items ++ [newItemRow item invoice_id item_id])
                inv2.id := by
        intro inv2 hmm
        have hne : inv2.id ≠ inv0.id :=
          ne_key_of_nodup_split (fun i2 : Invoice => i2.id) hnd_split inv2 hmm
        have hmemdb : inv2 ∈ db.invoices := by
          rw [hl]
          rcases hmm with h | h
          · exact List.mem_append_left _ h
          · exact List.mem_append_right _ (List.mem_cons_of_mem _ h)
        rw [itemsTotal_append, itemsTotal_singleton]
        have hbe : ((newItemRow item invoice_id item_id).invoice_id == inv2.id)
            = false :=
          beq_eq_false_iff_ne.mpr
            (fun hc => hne (by rw [hiid]; exact hc.symm))
        rw [hbe]
        simp [hT.1 inv2 hmemdb]
      intro inv hm
      have hm' : inv ∈ updateFirstBy (fun i2 => i2.id == invoice_id)
          (shiftTotal ((item.quantity : ℚ) * item.unit_price))
          db.invoices := hm
      rw [hupd, List.mem_append, List.mem_cons] at hm'
      show inv.total_amount
        = itemsTotal (db.items ++ [newItemRow item invoice_id item_id]) inv.id
      rcases hm' with hmem | hmem
      · exact hside inv (Or.inl hmem)
      · rcases hmem with heq | hmem
        · rw [heq]
          show inv0.total_amount + (item.quantity : ℚ) * item.unit_price
            = itemsTotal (db.items ++ [newItemRow item invoice_id item_id])
                inv0.id
          rw [itemsTotal_append, itemsTotal_singleton]
          have hbe : ((newItemRow item invoice_id item_id).invoice_id
              == inv0.id) = true := by
            show (invoice_id == inv0.id) = true
            simp [hiid]
          rw [hbe]
          rw [hT.1 inv0 (by
            rw [hl]; exact List.mem_append_right _ (List.mem_cons_self _ _))]
          simp [newItemRow]
        · exact hside inv (Or.inr hmem)

theorem itemsTotal_append_cons (s : List InvoiceItem) (a : InvoiceItem)
    (t : List InvoiceItem) (j : String) :
    itemsTotal (s ++ a :: t) j
      = itemsTotal s j + (if a.invoice_id == j then a.total else 0)
        + itemsTotal t j := by
  rw [itemsTotal_append, itemsTotal_cons]
  ring

theorem recomputedItem_id (it : InvoiceItem) (upd : InvoiceItemUpdate) :
    (recomputedItem it upd).id = it.id := rfl

theorem recomputedItem_invoice_id (it : InvoiceItem)
    (upd : InvoiceItemUpdate) :
    (recomputedItem it upd).invoice_id = it.invoice_id := rfl

/-- `update_invoice_item` preserves key uniqueness and the accounting
equations. -/
theorem step_updItem (db : DB) (item_id : String) (upd : InvoiceItemUpdate)
    (hW : Wf db) (hT : TotalsInv db) :
    Wf (applyOp db (Op.updItem item_id upd)) ∧
    TotalsInv (applyOp db (Op.updItem item_id upd)) := by
  cases hit : get_invoice_item db item_id with
  | none =>
    have happ : applyOp db (Op.updItem item_id upd) = db := by
      simp [applyOp, update_invoice_item, hit]
    rw [happ]
    exact ⟨hW, hT⟩
  | some db_item =>
    obtain ⟨hpI, sI, tI, hlI, hsI⟩ := List.find?_eq_some.mp hit
    have hid_item : db_item.id = item_id := by simpa using hpI
    have hupdI : updateFirstBy (fun it => it.id == item_id)
        (fun _ => recomputedItem db_item upd) db.items
        = sI ++ recomputedItem db_item upd :: tI := by
      rw [hlI]
      exact updateFirstBy_append_cons (fun it => it.id == item_id)
        (fun _ => recomputedItem db_item upd)
        (fun x hx => by simpa using hsI x hx) hpI
    have hnd_items : ((sI ++ recomputedItem db_item upd :: tI).map
        (fun it => it.id)).Nodup := by
      have : ((sI ++ db_item :: tI).map (fun it => it.id)).Nodup := by
        rw [← hlI]; exact hW.2
      simp only [List.map_append, List.map_cons] at this ⊢
      exact this
    have hT2 : ∀ it ∈ sI ++ recomputedItem db_item upd :: tI,
        it.total = (it.quantity : ℚ) * it.unit_price := by
      intro it hm
      rw [List.mem_append, List.mem_cons] at hm
      rcases hm with hm | hm
      · exact hT.2 it (by rw [hlI]; exact List.mem_append_left _ hm)
      · rcases hm with heq | hm
        · rw [heq]; rfl
        · exact hT.2 it (by
            rw [hlI]
            exact List.mem_append_right _ (List.mem_cons_of_mem _ hm))
    cases hinv : get_invoice db db_item.invoice_id with
    | none =>
      have happ : applyOp db (Op.updItem item_id upd)
          = { db with
              items := updateFirstBy (fun it => it.id == item_id)
                (fun _ => recomputedItem db_item upd) db.items,
              invoices := db.invoices } := by
        simp [applyOp, update_invoice_item, hit, hinv]
      rw [happ]
      have hnotin : ∀ inv ∈ db.invoices, inv.id ≠ db_item.invoice_id := by
        intro inv hm hcon
        rw [get_invoice, List.find?_eq_none] at hinv
        exact hinv inv hm (by simp [hcon])
      refine ⟨⟨hW.1, by rw [hupdI] at *; exact hnd_items⟩, ?_, ?_⟩
      · intro inv hm
        have hm' : inv ∈ db.invoices := hm
        show inv.total_amount
          = itemsTotal (updateFirstBy (fun it => it.id == item_id)
              (fun _ => recomputedItem db_item upd) db.items) inv.id
        rw [hupdI, itemsTotal_append_cons]
        have hbe : ((recomputedItem db_item upd).invoice_id == inv.id)
            = false := by
          rw [recomputedItem_invoice_id]
          exact beq_eq_false_iff_ne.mpr (fun hc => hnotin inv hm' hc.symm)
        rw [hbe]
        have hTold := hT.1 inv hm'
        rw [hlI, itemsTotal_append_cons] at hTold
        have hbe2 : (db_item.invoice_id == inv.id) = false :=
          beq_eq_false_iff_ne.mpr (fun hc => hnotin inv hm' hc.symm)
        rw [hbe2] at hTold
        simpa using hTold
      · intro it hm
        have hm' : it ∈ sI ++ recomputedItem db_item upd :: tI := by
          rw [← hupdI]; exact hm
        exact hT2 it hm'
    | some inv0 =>
      obtain ⟨hp, s, t, hl, hs⟩ := List.find?_eq_some.mp hinv
      have hiid : inv0.id = db_item.invoice_id := by simpa using hp
      have happ : applyOp db (Op.updItem item_id upd)
          = { db with
              items := updateFirstBy (fun it => it.id == item_id)
                (fun _ => recomputedItem db_item upd) db.items,
              invoices := updateFirstBy
                (fun i2 => i2.id == db_item.invoice_id)
                (adjustTotal db_item.total (recomputedItem db_item upd).total)
                db.invoices } := by
        simp [applyOp, update_invoice_item, hit, hinv]
      rw [happ]
      have hupd : updateFirstBy (fun i2 => i2.id == db_item.invoice_id)
          (adjustTotal db_item.total (recomputedItem db_item upd).total)
          db.invoices
          = s ++ adjustTotal db_item.total (recomputedItem db_item upd).total
              inv0 :: t := by
        rw [hl]
        exact updateFirstBy_append_cons
          (fun i2 => i2.id == db_item.invoice_id)
          (adjustTotal db_item.total (recomputedItem db_item upd).total)
          (fun x hx => by simpa using hs x hx) hp
      have hnd_split : ((s ++ inv0 :: t).map (fun i2 => i2.id)).Nodup := by
        rw [← hl]; exact hW.1
      constructor
      · refine ⟨?_, by rw [hupdI] at *; exact hnd_items⟩
        show ((updateFirstBy (fun i2 => i2.id == db_item.invoice_id)
          (adjustTotal db_item.total (recomputedItem db_item upd).total)
          db.invoices).map (fun i2 => i2.id)).Nodup
        rw [map_key_updateFirstBy (fun i2 : Invoice => i2.id)
          (adjustTotal db_item.total (recomputedItem db_item upd).total)
          (adjustTotal_id db_item.total (recomputedItem db_item upd).total)
          _ db.invoices]
        exact hW.1
      · refine ⟨?_, ?_⟩
        swap
        · intro it hm
          have hm' : it ∈ sI ++ recomputedItem db_item upd :: tI := by
            rw [← hupdI]; exact hm
          exact hT2 it hm'
        have hside : ∀ inv2 : Invoice, (inv2 ∈ s ∨ inv2 ∈ t) →
            inv2.total_amount
              = itemsTotal (sI ++ recomputedItem db_item upd :: tI)
                  inv2.id := by
          intro inv2 hmm
          have hne : inv2.id ≠ inv0.id :=
            ne_key_of_nodup_split (fun i2 : Invoice => i2.id) hnd_split
              inv2 hmm
          have hne' : db_item.invoice_id ≠ inv2.id :=
            fun hc => hne (by rw [hiid]; exact hc.symm)
          have hmemdb : inv2 ∈ db.invoices := by
            rw [hl]
            rcases hmm with h | h
            · exact List.mem_append_left _ h
            · exact List.mem_append_right _ (List.mem_cons_of_mem _ h)
          rw [itemsTotal_append_cons]
          have hbe : ((recomputedItem db_item upd).invoice_id == inv2.id)
              = false := by
            rw [recomputedItem_invoice_id]
            exact beq_eq_false_iff_ne.mpr hne'
          rw [hbe]
          have hTold := hT.1 inv2 hmemdb
          rw [hlI, itemsTotal_append_cons,
            beq_eq_false_iff_ne.mpr hne'] at hTold
          simpa using hTold
        intro inv hm
        have hm' : inv ∈ updateFirstBy
            (fun i2 => i2.id == db_item.invoice_id)
            (adjustTotal db_item.total (recomputedItem db_item upd).total)
            db.invoices := hm
        rw [hupd, List.mem_append, List.mem_cons] at hm'
        show inv.total_amount
          = itemsTotal (updateFirstBy (fun it => it.id == item_id)
              (fun _ => recomputedItem db_item upd) db.items) inv.id
        rw [hupdI]
        rcases hm' with hmem | hmem
        · exact hside inv (Or.inl hmem)
        · rcases hmem with heq | hmem
          · rw [heq]
            show inv0.total_amount - db_item.total
                + (recomputedItem db_item upd).total
              = itemsTotal (sI ++ recomputedItem db_item upd :: tI) inv0.id
            rw [itemsTotal_append_cons]
            have hbe : ((recomputedItem db_item upd).invoice_id == inv0.id)
                = true := by
              rw [recomputedItem_invoice_id]
              simp [hiid]
            rw [hbe]
            have hTold := hT.1 inv0 (by
              rw [hl]
              exact List.mem_append_right _ (List.mem_cons_self _ _))
            rw [hlI, itemsTotal_append_cons,
              (by simp [hiid] : (db_item.invoice_id == inv0.id) = true)]
              at hTold
            rw [hTold]
            simp
            ring
          · exact hside inv (Or.inr hmem)

/-- `delete_invoice_item` preserves key uniqueness and the accounting
equations. -/
theorem step_delItem (db : DB) (item_id : String)
    (hW : Wf db) (hT : TotalsInv db) :
    Wf (applyOp db (Op.delItem item_id)) ∧
    TotalsInv (applyOp db (Op.delItem item_id)) := by
  cases hit : get_invoice_item db item_id with
  | none =>
    have happ : applyOp db (Op.delItem item_id) = db := by
      simp [applyOp, delete_invoice_item, hit]
    rw [happ]
    exact ⟨hW, hT⟩
  | some db_item =>
    obtain ⟨hpI, sI, tI, hlI, hsI⟩ := List.find?_eq_some.mp hit
    have hremI : removeFirstBy (fun it => it.id == item_id) db.items
        = sI ++ tI := by
      rw [hlI]
      exact removeFirstBy_append_cons (fun it : InvoiceItem => it.id == item_id)
        (fun x hx => by simpa using hsI x hx) hpI
    have hnd_items : ((sI ++ tI).map (fun it => it.id)).Nodup := by
      have hsub : List.Sublist ((sI ++ tI).map (fun it : InvoiceItem => it.id))
          ((sI ++ db_item :: tI).map (fun it : InvoiceItem => it.id)) :=
        List.Sublist.map _
          (List.Sublist.append_left (List.sublist_cons_self db_item tI) sI)
      have hnd : ((sI ++ db_item :: tI).map (fun it => it.id)).Nodup := by
        rw [← hlI]; exact hW.2
      exact List.Nodup.sublist hsub hnd
    have hT2 : ∀ it ∈ sI ++ tI,
        it.total = (it.quantity : ℚ) * it.unit_price := by
      intro it hm
      rw [List.mem_append] at hm
      rcases hm with hm | hm
      · exact hT.2 it (by rw [hlI]; exact List.mem_append_left _ hm)
      · exact hT.2 it (by
          rw [hlI]
          exact List.mem_append_right _ (List.mem_cons_of_mem _ hm))
    cases hinv : get_invoice db db_item.invoice_id with
    | none =>
      have happ : applyOp db (Op.delItem item_id)
          = { db with
              items := removeFirstBy (fun it => it.id == item_id) db.items,
              invoices := db.invoices } := by
        simp [applyOp, delete_invoice_item, hit, hinv]
      rw [happ]
      have hnotin : ∀ inv ∈ db.invoices, inv.id ≠ db_item.invoice_id := by
        intro inv hm hcon
        rw [get_invoice, List.find?_eq_none] at hinv
        exact hinv inv hm (by simp [hcon])
      refine ⟨⟨hW.1, by rw [hremI] at *; exact hnd_items⟩, ?_, ?_⟩
      · intro inv hm
        have hm' : inv ∈ db.invoices := hm
        show inv.total_amount
          = itemsTotal (removeFirstBy (fun it => it.id == item_id) db.items)
              inv.id
        rw [hremI, itemsTotal_append]
        have hTold := hT.1 inv hm'
        rw [hlI, itemsTotal_append_cons,
          beq_eq_false_iff_ne.mpr
            (fun hc => hnotin inv hm' hc.symm)] at hTold
        simpa using hTold
      · intro it hm
        have hm' : it ∈ sI ++ tI := by rw [← hremI]; exact hm
        exact hT2 it hm'
    | some inv0 =>
      obtain ⟨hp, s, t, hl, hs⟩ := List.find?_eq_some.mp hinv
      have hiid : inv0.id = db_item.invoice_id := by simpa using hp
      have happ : applyOp db (Op.delItem item_id)
          = { db with
              items := removeFirstBy (fun it => it.id == item_id) db.items,
              invoices := updateFirstBy
                (fun i2 => i2.id == db_item.invoice_id)
                (subtractTotal db_item.total) db.invoices } := by
        simp [applyOp, delete_invoice_item, hit, hinv]
      rw [happ]
      have hupd : updateFirstBy (fun i2 => i2.id == db_item.invoice_id)
          (subtractTotal db_item.total) db.invoices
          = s ++ subtractTotal db_item.total inv0 :: t := by
        rw [hl]
        exact updateFirstBy_append_cons
          (fun i2 => i2.id == db_item.invoice_id)
          (subtractTotal db_item.total)
          (fun x hx => by simpa using hs x hx) hp
      have hnd_split : ((s ++ inv0 :: t).map (fun i2 => i2.id)).Nodup := by
        rw [← hl]; exact hW.1
      constructor
      · refine ⟨?_, by rw [hremI] at *; exact hnd_items⟩
        show ((updateFirstBy (fun i2 => i2.id == db_item.invoice_id)
          (subtractTotal db_item.total) db.invoices).map
            (fun i2 => i2.id)).Nodup
        rw [map_key_updateFirstBy (fun i2 : Invoice => i2.id)
          (subtractTotal db_item.total) (subtractTotal_id db_item.total)
          _ db.invoices]
        exact hW.1
      · refine ⟨?_, ?_⟩
        swap
        · intro it hm
          have hm' : it ∈ sI ++ tI := by rw [← hremI]; exact hm
          exact hT2 it hm'
        have hside : ∀ inv2 : Invoice, (inv2 ∈ s ∨ inv2 ∈ t) →
            inv2.total_amount = itemsTotal (sI ++ tI) inv2.id := by
          intro inv2 hmm
          have hne : inv2.id ≠ inv0.id :=
            ne_key_of_nodup_split (fun i2 : Invoice => i2.id) hnd_split
              inv2 hmm
          have hne' : db_item.invoice_id ≠ inv2.id :=
            fun hc => hne (by rw [hiid]; exact hc.symm)
          have hmemdb : inv2 ∈ db.invoices := by
            rw [hl]
            rcases hmm with h | h
            · exact List.mem_append_left _ h
            · exact List.mem_append_right _ (List.mem_cons_of_mem _ h)
          rw [itemsTotal_append]
          have hTold := hT.1 inv2 hmemdb
          rw [hlI, itemsTotal_append_cons,
            beq_eq_false_iff_ne.mpr hne'] at hTold
          simpa using hTold
        intro inv hm
        have hm' : inv ∈ updateFirstBy
            (fun i2 => i2.id == db_item.invoice_id)
            (subtractTotal db_item.total) db.invoices := hm
        rw [hupd, List.mem_append, List.mem_cons] at hm'
        show inv.total_amount
          = itemsTotal (removeFirstBy (fun it => it.id == item_id) db.items)
              inv.id
        rw [hremI]
        rcases hm' with hmem | hmem
        · exact hside inv (Or.inl hmem)
        · rcases hmem with heq | hmem
          · rw [heq]
            show inv0.total_amount - db_item.total
              = itemsTotal (sI ++ tI) inv0.id
            rw [itemsTotal_append]
            have hTold := hT.1 inv0 (by
              rw [hl]
              exact List.mem_append_right _ (List.mem_cons_self _ _))
            rw [hlI, itemsTotal_append_cons,
              (by simp [hiid] : (db_item.invoice_id == inv0.id) = true)]
              at hTold
            rw [hTold]
            simp
            ring
          · exact hside inv (Or.inr hmem)

/-- Any single item-level operation with fresh ids preserves key
uniqueness and the accounting equations. -/
theorem step_preserves (db : DB) (op : Op) (hW : Wf db) (hT : TotalsInv db)
    (hF : FreshOp db op) :
    Wf (applyOp db op) ∧ TotalsInv (applyOp db op) := by
  cases op with
  | createInv invoice uid iid ids =>
    exact step_createInv db invoice uid iid ids hW hT hF
  | addItem item iid tid => exact step_addItem db item iid tid hW hT hF
  | updItem tid upd => exact step_updItem db tid upd hW hT
  | delItem tid => exact step_delItem db tid hW hT

/-- The fold of a fresh operation sequence preserves key uniqueness and
the accounting equations. -/
theorem applyOps_preserves :
    ∀ (ops : List Op) (db : DB), Wf db → TotalsInv db → FreshSeq db ops →
      Wf (applyOps db ops) ∧ TotalsInv (applyOps db ops)
  | [], _, hW, hT, _ => ⟨hW, hT⟩
  | op :: ops, db, hW, hT, hF => by
    obtain ⟨hW', hT'⟩ := step_preserves db op hW hT hF.1
    exact applyOps_preserves ops (applyOp db op) hW' hT' hF.2

/-- C5: after any finite sequence of item-level operations (create
invoice with items, add item, update item, delete item) from a state
with unique keys satisfying the accounting equations — with fresh
generated ids, as UUID generation guarantees — every invoice's
`total_amount` equals the sum of its current items' totals and every
item's `total` equals `quantity * unit_price`: both equations are
invariants of these operations. -/
theorem accounting_invariant_preserved (db : DB) (ops : List Op)
    (hW : Wf db) (hT : TotalsInv db) (hF : FreshSeq db ops) :
    (∀ inv ∈ (applyOps db ops).invoices,
      inv.total_amount = itemsTotal (applyOps db ops).items inv.id) ∧
    ∀ it ∈ (applyOps db ops).items,
      it.total = (it.quantity : ℚ) * it.unit_price :=
  (applyOps_preserves ops db hW hT hF).2

/-- Witness for C5: the sample sequence `opsW` run from the empty state
satisfies the invariant at its end. -/
theorem accounting_invariant_preserved_witness :
    (∀ inv ∈ (applyOps dbE opsW).invoices,
      inv.total_amount = itemsTotal (applyOps dbE opsW).items inv.id) ∧
    ∀ it ∈ (applyOps dbE opsW).items,
      it.total = (it.quantity : ℚ) * it.unit_price :=
  accounting_invariant_preserved dbE opsW (by decide) (by decide) (by decide)

end InvoiceApp
